import Mathlib

/-!
Shallow embedding of the iskiplist Go repository (indexable skip lists).

The repository contains several source variants of the same package:
 * `src/unnamed/part_001` together with `src/unnamed/part_000` form one
   complete variant of package `iskiplist` (embedded below in namespace
   `ISL.Core`);
 * `src/iskiplist.go` is another variant of the same package (functions
   that differ from `Core` are embedded in namespace `ISL.GV`);
 * `src/sliceutils/sliceutils.go` (first document) is the reference
   contiguous-array implementation (namespace `ISL.SU`);
 * `src/buffered/buffered.go` (second document, package
   `bufferediskiplist`) is the buffered wrapper (namespace `ISL.Buf`).

Pointers are modelled as indices into an explicit heap (a list of nodes);
Go panics (bounds violations, nil dereferences, internal-error panics and
the debugging leftover `panic("HERE")`) are modelled as `Except` errors.
Machine integers: Go `int` values (lengths, indices, distances, elements)
are modelled as `Int` (no operation here approaches 2^63); the PCG32
generator state is modelled as `Nat` reduced explicitly modulo 2^64 and
2^32 where the Go code relies on fixed-width wrap-around.
Unbounded Go loops (pointer walks) take explicit fuel and report
exhaustion as a distinct error; the fuel passed at call sites exceeds the
number of heap nodes, which bounds every walk of an acyclic heap.
-/

namespace ISL

/-- Outcomes of a Go panic, by provenance: an index bounds check
(`outOfBounds`), a library-internal invariant panic, a runtime fault (nil
dereference or slice index out of range), the leftover debugging
`panic("HERE")` in `checkEndSliceGrowth`, and fuel exhaustion of the
embedding (unreachable for the acyclic heaps produced by the operations). -/
inductive Err where
  | outOfBounds
  | internalInvariant
  | runtimeFault
  | debugLeftover
  | outOfFuel
deriving Repr, DecidableEq

/-- 2^32, the modulus of the 32-bit outputs of the pcg generator. -/
def U32 : Nat := 4294967296

/-- 2^64, the modulus of the 64-bit pcg state. -/
def U64 : Nat := 18446744073709551616

/-- Multiplier of the pcg32 linear congruential step (src/unnamed/part_001,
pcg document). -/
def pcg32Multiplier : Nat := 6364136223846793005

/-- Default state of a fresh generator (`pcg32State`). -/
def pcg32State : Nat := 9600629759793949339

/-- Default increment of a fresh generator (`pcg32Increment`). -/
def pcg32Increment : Nat := 15726070495360670683

/-- The pcg32 generator state (struct `Pcg32` of the pcg document inside
src/unnamed/part_001): a 64-bit state and a 64-bit increment. -/
structure Pcg32 where
  state : Nat
  increment : Nat
deriving Repr, DecidableEq

/-- `NewPCG32`. -/
def newPCG32 : Pcg32 :=
  { state := pcg32State, increment := pcg32Increment }

/-- `Pcg32.Seed`: the increment is the sequence shifted left one with the
low bit set, and the state is advanced once from `state + increment`. -/
def Pcg32.Seed (state sequence : Nat) : Pcg32 :=
  let inc := ((sequence <<< 1) ||| 1) % U64
  { state := ((state % U64 + inc) * pcg32Multiplier + inc) % U64,
    increment := inc }

/-- `Pcg32.Random`: advance the 64-bit linear congruential state and
permute the old state into a 32-bit output (xorshift then rotate). -/
def Pcg32.Random (p : Pcg32) : Nat × Pcg32 :=
  let oldState := p.state
  let newState := (oldState * pcg32Multiplier + p.increment) % U64
  let xorShifted := (((oldState >>> 18) ^^^ oldState) >>> 27) % U32
  let rot := oldState >>> 59
  let out := ((xorShifted >>> rot) ||| ((xorShifted <<< ((32 - rot) % 32)) % U32)) % U32
  (out, { p with state := newState })

/-- `Pcg32.IsUninitialized`: the state of a seeded generator is odd, so a
zero state marks the uninitialized generator. -/
def Pcg32.IsUninitialized (p : Pcg32) : Bool :=
  p.state == (0 : Nat)

/-- `ISkipList.Seed` forces the low bit of the first seed to 1 before
seeding the generator. -/
def seedList (seed1 seed2 : Nat) : Pcg32 :=
  Pcg32.Seed (seed1 ||| 1) seed2

/-- `fastSeed` seeds the generator from the memory address of the
ISkipList. A memory address has no counterpart in this model, so the
model seeds from fixed values; every theorem below either seeds its lists
explicitly (so this branch never runs) or holds for all generator states. -/
def fastSeed : Pcg32 :=
  seedList 1 1

/-- `maxLevels` = 30, the level ceiling of the implementation. -/
def maxLevels : Int := 30

/-- `minIndexToCache` = 8: smaller indices are retrieved without touching
the index cache. -/
def minIndexToCache : Int := 8

/-- `pTable`: cumulative thresholds, scaled to 2^32, of the geometric
level distribution with success probability 1/e (21 entries). -/
def pTable : List Nat :=
  [2714937127, 3713706680, 4081133465, 4216302225, 4266028033,
   4284321135, 4291050791, 4293526493, 4294437253, 4294772303,
   4294895561, 4294940905, 4294957586, 4294963723, 4294965981,
   4294966812, 4294967118, 4294967230, 4294967271, 4294967286,
   4294967292]

/-- Linear search of the Go pattern `for i, p := range tbl { if r < p
{ return i } }`: index of the first table entry strictly above `r`. -/
def tossScan (r : Nat) : List Nat → Option Nat
  | [] => none
  | p :: rest =>
    if r < p then some 0 else (tossScan r rest).map (· + 1)

/-- `nTosses` (identical in src/iskiplist.go and src/unnamed/part_000):
draw a 32-bit value and probe `pTable`; past the last threshold, draw a
second value and probe the first entries again with offset 21, capped at
`maxLevels`. The Go function reads and writes only the generator state of
the list, so the model passes the generator alone. -/
def nTosses (p0 : Pcg32) : Int × Pcg32 :=
  let p := if p0.IsUninitialized then fastSeed else p0
  let rp := p.Random
  match tossScan rp.1 pTable with
  | some i => ((i : Int), rp.2)
  | none =>
    let rp2 := rp.2.Random
    match tossScan rp2.1 (pTable.take 9) with
    | some i => ((i : Int) + 21, rp2.2)
    | none => (maxLevels, rp2.2)

/-- `pTable8Zoff` (src/unnamed/part_000). -/
def pTable8Zoff : Nat := 0

/-- `pTable8`: cumulative distribution of the maximum level over a block
of 8 samples. -/
def pTable8 : List Nat :=
  [109486150, 1341966772, 2854482294, 3704544712, 4068839996,
   4210533266, 4263735088, 4283454413, 4290728799, 4293407615,
   4294393464, 4294756188, 4294889633, 4294938726, 4294956786,
   4294963430, 4294965874, 4294966773, 4294967104, 4294967226,
   4294967271, 4294967287, 4294967293, 4294967295]

/-- `pTable32ZOff`. -/
def pTable32ZOff : Nat := 0

/-- `pTable32`: block of 32 samples. -/
def pTable32 : List Nat :=
  [1814, 40934310, 837972623, 2377167476, 3459416588,
   3967060536, 4171394555, 4249100596, 4278038387, 4288731967,
   4292672427, 4294122923, 4294656650, 4294853013, 4294925253,
   4294951829, 4294961606, 4294965203, 4294966526, 4294967013,
   4294967192, 4294967258, 4294967282, 4294967291, 4294967294,
   4294967295]

/-- `pTable128ZOff`. -/
def pTable128ZOff : Nat := 1

/-- `pTable128`: block of 128 samples. -/
def pTable128 : List Nat :=
  [35, 6223572, 403050565, 1807722944, 3126048609,
   3821602355, 4114418537, 4227650965, 4270080238, 4285795170,
   4291590797, 4293724845, 4294510182, 4294799127, 4294905429,
   4294944536, 4294958923, 4294964216, 4294966163, 4294966879,
   4294967143, 4294967240, 4294967276, 4294967289, 4294967294]

/-- `pTable512ZOff`. -/
def pTable512ZOff : Nat := 3

/-- `pTable512`: block of 512 samples. -/
def pTable512 : List Nat :=
  [333088, 134786966, 1205322667, 2692169500, 3617048133,
   4031966501, 4196280970, 4258396152, 4281477221, 4289999651,
   4293139136, 4294294665, 4294719838, 4294876261, 4294933807,
   4294954977, 4294962765, 4294965630, 4294966684, 4294967072,
   4294967215, 4294967267, 4294967286, 4294967293]

/-- `pTable2048ZOff`. -/
def pTable2048ZOff : Nat := 4

/-- `pTable2048`: block of 2048 samples. -/
def pTable2048 : List Nat :=
  [4166, 26639969, 663025169, 2160416911, 3335708383,
   3913619990, 4150540523, 4241260681, 4275131154, 4287659314,
   4292277394, 4293977541, 4294603160, 4294833335, 4294918015,
   4294949167, 4294960627, 4294964843, 4294966394, 4294966965,
   4294967175, 4294967252, 4294967280, 4294967290, 4294967294,
   4294967295]

/-- `pTable8192ZOff`. -/
def pTable8192ZOff : Nat := 5

/-- `pTable8192`: block of 8192 samples. -/
def pTable8192 : List Nat :=
  [6, 2439161, 274960740, 1562689599, 2960976977,
   3745752254, 4084136811, 4216170712, 4265809891, 4284217790,
   4291009643, 4293510934, 4294431474, 4294770171, 4294894778,
   4294940619, 4294957483, 4294963687, 4294965969, 4294966809,
   4294967118, 4294967232, 4294967274, 4294967289, 4294967295]

/-- `pTable32768ZOff`. -/
def pTable32768ZOff : Nat := 7

/-- `pTable32768`: block of 32768 samples. -/
def pTable32768 : List Nat :=
  [72144, 75268160, 970198364, 2484715184, 3511733436,
   3988349089, 4179519954, 4252130417, 4279158542, 4289144801,
   4292824401, 4294178844, 4294677223, 4294860581, 4294928037,
   4294952853, 4294961982, 4294965340, 4294966575, 4294967030,
   4294967197, 4294967259, 4294967282]

/-- `pTable131072ZOff`. -/
def pTable131072ZOff : Nat := 8

/-- `pTable131072`: block of 131072 samples. -/
def pTable131072 : List Nat :=
  [405, 11183109, 481090601, 1919581637, 3193692305,
   3851465646, 4126166244, 4232080557, 4271724635, 4286402130,
   4291814358, 4293807125, 4294540456, 4294810265, 4294909526,
   4294946043, 4294959477, 4294964419, 4294966237, 4294966906,
   4294967152, 4294967242]

/-- `pTable262144ZOff`. -/
def pTable262144ZOff : Nat := 9

/-- `pTable262144`: block of 262144 samples. -/
def pTable262144 : List Nat :=
  [29118, 53888225, 857932880, 2374795857, 3453760321,
   3963999422, 4170114604, 4248607756, 4277854048, 4288663739,
   4292647271, 4294113661, 4294653242, 4294851760, 4294924793,
   4294951661, 4294961545, 4294965181, 4294966519, 4294967011,
   4294967192]

/-- `pTable1048576ZOff`. -/
def pTable1048576ZOff : Nat := 10

/-- `pTable1048576`: block of 1048576 samples. -/
def pTable1048576 : List Nat :=
  [106, 6838072, 401444533, 1795929150, 3116411128,
   3816914031, 4112509996, 4226922342, 4269808519, 4285694709,
   4291553771, 4293711215, 4294505167, 4294797283, 4294904752,
   4294944288, 4294958833, 4294964183, 4294966151, 4294966875]

/-- `pTable4194304ZOff`. -/
def pTable4194304ZOff : Nat := 12

/-- `pTable4194304`: block of 4194304 samples. -/
def pTable4194304 : List Nat :=
  [327810, 131303775, 1190527418, 2678982827, 3610341491,
   4029187631, 4195212982, 4257996890, 4281329467, 4289945175,
   4293119076, 4294287280, 4294717119, 4294875257, 4294933436,
   4294954838, 4294962712, 4294965608]

/-- `pTable16777216ZOff`. -/
def pTable16777216ZOff : Nat := 13

/-- `pTable16777216`: block of 16777216 samples. -/
def pTable16777216 : List Nat :=
  [3752, 25355842, 650129895, 2144438260, 3326521888,
   3909637329, 4148984156, 4240675262, 4274914027, 4287579196,
   4292247888, 4293966687, 4294599162, 4294831868, 4294917474,
   4294948970, 4294960554]

/-- `pTable67108864ZOff`. -/
def pTable67108864ZOff : Nat := 14

/-- `pTable67108864`: block of 67108864 samples. -/
def pTable67108864 : List Nat :=
  [5, 2254867, 266915997, 1545546076, 2948942510,
   3740137088, 4081882345, 4215314238, 4265491052, 4284099979,
   4290966248, 4293494940, 4294425602, 4294768004, 4294893984,
   4294940319]

/-- `pTable268435456ZOff`. -/
def pTable268435456ZOff : Nat := 16

/-- `pTable268435456`: block of 268435456 samples. -/
def pTable268435456 : List Nat :=
  [64065, 72019192, 954521336, 2469849553, 3503985876,
   3985109308, 4178270546, 4251662734, 4278985456, 4289080901,
   4292800930, 4294170185, 4294674057, 4294859392]

/-- `pTable1073741824ZOff`. -/
def pTable1073741824ZOff : Nat := 17

/-- `pTable1073741824`: block of 1073741824 samples. -/
def pTable1073741824 : List Nat :=
  [340, 10477629, 469680377, 1902697748, 3183327853,
   3846862347, 4124351229, 4231395872, 4271470080, 4286308390,
   4291779745, 4293794466, 4294535704]

/-- `pTable4294967296ZOff`. -/
def pTable4294967296ZOff : Nat := 19

/-- `pTable4294967296`: block of 4294967296 samples. -/
def pTable4294967296 : List Nat :=
  [614229, 165424424, 1296122030, 2764057036, 3652102740,
   4046271760, 4201746919, 4260436266, 4282231273, 4290277890,
   4293241179]

/-- `pTable17179869184ZOff`. -/
def pTable17179869184ZOff : Nat := 20

/-- `pTable17179869184`: block of 17179869184 samples. -/
def pTable17179869184 : List Nat :=
  [9452, 35620826, 736730107, 2245392988, 3383300774,
   3934050924, 4158500016, 4244249356, 4276240371, 4288066990]

/-- `pTable68719476736ZOff`. -/
def pTable68719476736ZOff : Nat := 21

/-- `pTable68719476736`: block of 68719476736 samples. -/
def pTable68719476736 : List Nat :=
  [20, 3718382, 320841001, 1653799469, 3023293602,
   3774567931, 4095660799, 4220548086, 4267432512]

/-- `pTable274877906944ZOff`. -/
def pTable274877906944ZOff : Nat := 23

/-- `pTable274877906944`: block of 274877906944 samples. -/
def pTable274877906944 : List Nat :=
  [133746, 94417351, 1054488182, 2562060611, 3551536989,
   4004938279, 4185882787]

/-- `pTable1099511627776ZOff`. -/
def pTable1099511627776ZOff : Nat := 24

/-- `pTable1099511627776`: block of 1099511627776 samples. -/
def pTable1099511627776 : List Nat :=
  [1003, 15605845, 543848600, 2008102075, 3247160282,
   3874972893]

/-- `pTable4398046511104ZOff`. -/
def pTable4398046511104ZOff : Nat := 25

/-- `pTable4398046511104`: block of 4398046511104 samples. -/
def pTable4398046511104 : List Nat :=
  [1, 1104161, 205240732, 1403250873, 2845739169]

/-- The `if i+zoff > nLevels { nLevels = i+zoff }` update of
`estimateNLevelsFromLength`. -/
def maxAcc (acc v : Int) : Int :=
  if v > acc then v else acc

/-- The residual branch of `estimateNLevelsFromLength` for `n < 8`: the Go
loop `for ; n >= 0; n--` draws `n+1` individual samples and folds them
into the accumulated maximum, then breaks out of the decomposition. -/
def residualTosses : Nat → Pcg32 → Int → Int × Pcg32
  | 0, p, acc => (acc, p)
  | k + 1, p, acc =>
    let np := nTosses p
    residualTosses k np.2 (maxAcc acc np.1)

/-- Block selection of `estimateNLevelsFromLength` (src/unnamed/part_000):
for `8 ≤ n`, the branch chain picks the block size to subtract, the
block-specific cumulative table and its zero offset. -/
def blockSpec (n : Int) : Int × List Nat × Nat :=
  if n < 32 then (8, pTable8, pTable8Zoff)
  else if n < 128 then (32, pTable32, pTable32ZOff)
  else if n < 512 then (128, pTable128, pTable128ZOff)
  else if n < 2048 then (512, pTable512, pTable512ZOff)
  else if n < 8192 then (2048, pTable2048, pTable2048ZOff)
  else if n < 32768 then (8192, pTable8192, pTable8192ZOff)
  else if n < 131072 then (32768, pTable32768, pTable32768ZOff)
  else if n < 262144 then (131072, pTable131072, pTable131072ZOff)
  else if n < 1048576 then (262144, pTable262144, pTable262144ZOff)
  else if n < 4194304 then (1048576, pTable1048576, pTable1048576ZOff)
  else if n < 16777216 then (4194304, pTable4194304, pTable4194304ZOff)
  else if n < 67108864 then (16777216, pTable16777216, pTable16777216ZOff)
  else if n < 268435456 then (67108864, pTable67108864, pTable67108864ZOff)
  else if n < 1073741824 then (268435456, pTable268435456, pTable268435456ZOff)
  else if n < 4294967296 then (1073741824, pTable1073741824, pTable1073741824ZOff)
  else if n < 17179869184 then (4294967296, pTable4294967296, pTable4294967296ZOff)
  else if n < 68719476736 then (17179869184, pTable17179869184, pTable17179869184ZOff)
  else if n < 274877906944 then (68719476736, pTable68719476736, pTable68719476736ZOff)
  else if n < 1099511627776 then (274877906944, pTable274877906944, pTable274877906944ZOff)
  else if n < 4398046511104 then (1099511627776, pTable1099511627776, pTable1099511627776ZOff)
  else (4398046511104, pTable4398046511104, pTable4398046511104ZOff)

/-- The `outer` loop of `estimateNLevelsFromLength`: while `n > 0`, either
take the residual branch (`n < 8`), or draw one 32-bit value, look it up
in the block table chosen by `blockSpec` (each branch of the Go chain
subtracts its block size and scans its table in exactly this way),
update the running maximum and continue; a value beyond the table yields
`maxLevels` and stops. The fuel exceeds the number of iterations (each
iteration removes at least 8 from `n`). -/
def estimateLoop : Nat → Pcg32 → Int → Int → Int × Pcg32
  | 0, p, _, acc => (acc, p)
  | fuel + 1, p, n, acc =>
    if n > 0 then
      if n < 8 then residualTosses (n.toNat + 1) p acc
      else
        let rp := p.Random
        let spec := blockSpec n
        match tossScan rp.1 spec.2.1 with
        | some i => estimateLoop fuel rp.2 (n - spec.1) (maxAcc acc ((i : Int) + (spec.2.2 : Int)))
        | none => (maxLevels, rp.2)
    else (acc, p)

/-- `estimateNLevelsFromLength`: a plausible sample of the maximum level
over `n` individual samples, computed blockwise. The Go function touches
only the generator state of the list. -/
def estimateNLevelsFromLength (p : Pcg32) (n : Int) : Int × Pcg32 :=
  estimateLoop (n.toNat + 2) p n 0

/-- A pointer: an index into the heap, or `none` for Go's nil. -/
abbrev Ptr := Nat

/-- `listNode`: the element (or, on non-densest levels, the distance to
the successor) together with the successor on the same level and the node
at the same position on the next denser level. -/
structure listNode where
  elem : Int
  next : Option Ptr
  nextLevel : Option Ptr
deriving Repr, DecidableEq

/-- The heap holding every allocated node. -/
abbrev Heap := List listNode

/-- Dereference a pointer; Go's nil dereference panic and a dangling index
are runtime faults. -/
def readNode (h : Heap) (p : Option Ptr) : Except Err listNode :=
  match p with
  | none => .error .runtimeFault
  | some i =>
    match h[i]? with
    | some nd => .ok nd
    | none => .error .runtimeFault

/-- Store a node through a pointer. -/
def writeNode (h : Heap) (p : Option Ptr) (nd : listNode) : Except Err Heap :=
  match p with
  | none => .error .runtimeFault
  | some i => if i < h.length then .ok (h.set i nd) else .error .runtimeFault

/-- Allocate a fresh node (`&listNode{...}` in Go). -/
def alloc (h : Heap) (nd : listNode) : Ptr × Heap :=
  (h.length, h ++ [nd])

/-- Read a Go slice at a (possibly negative) index; out of range panics. -/
def getI (xs : List α) (i : Int) : Except Err α :=
  if i < 0 then .error .runtimeFault
  else
    match xs[i.toNat]? with
    | some v => .ok v
    | none => .error .runtimeFault

/-- Write a Go slice at an index; out of range panics. -/
def setI (xs : List α) (i : Int) (v : α) : Except Err (List α) :=
  if 0 ≤ i ∧ i.toNat < xs.length then .ok (xs.set i.toNat v)
  else .error .runtimeFault

/-- Fuel for a pointer walk: more than the number of nodes, which bounds
any walk through an acyclic heap. -/
def walkFuel (h : Heap) : Nat :=
  h.length + 64

/-- `indexCache`: the index of the last recorded descent and, for every
non-densest level, the last node of the descent on that level together
with its densest-level position. -/
structure indexCache where
  index : Int
  prevs : List (Option Ptr)
  prevIndices : List Int
deriving Repr, DecidableEq

/-- `indexCache.invalidate`: mark invalid and drop the node references. -/
def indexCache.invalidate (c : indexCache) : indexCache :=
  { c with index := -1, prevs := c.prevs.map (fun _ => none) }

/-- `indexCache.isValid`. -/
def indexCache.isValid (c : indexCache) : Bool :=
  c.index ≥ 0

/-- `ISkipList`: length, number of levels above the densest, root of the
sparsest level, generator state, optional cache, plus the heap that holds
the nodes. -/
structure ISkipList where
  length : Int
  nLevels : Int
  root : Option Ptr
  rand : Pcg32
  cache : Option indexCache
  heap : Heap
deriving Repr, DecidableEq

/-- The zero value `var sl ISkipList` with an explicit seed applied, as
the tests create lists (`sl.Seed(seed1, seed2)`). -/
def emptySeeded (seed1 seed2 : Nat) : ISkipList :=
  { length := 0, nLevels := 0, root := none,
    rand := seedList seed1 seed2, cache := none, heap := [] }

/-- Descent loop of `getTo`: while the node is not on the densest level,
move right when the remaining index covers the stored distance and a
successor exists, otherwise drop a level. -/
def getToLoop (h : Heap) : Nat → Option Ptr → Int → Except Err (Option Ptr × Int)
  | 0, _, _ => .error .outOfFuel
  | fuel + 1, node, index => do
    let nd ← readNode h node
    match nd.nextLevel with
    | none => .ok (node, index)
    | some _ =>
      if index ≥ nd.elem ∧ nd.next.isSome then getToLoop h fuel nd.next (index - nd.elem)
      else getToLoop h fuel nd.nextLevel index

/-- Densest-level walk of `getTo`: `for index != 0 { index--; node = node.next }`. -/
def getToDense (h : Heap) : Nat → Option Ptr → Int → Except Err (Option Ptr)
  | 0, _, _ => .error .outOfFuel
  | fuel + 1, node, index =>
    if index ≠ 0 then do
      let nd ← readNode h node
      getToDense h fuel nd.next (index - 1)
    else .ok node

/-- `getTo` (identical in both variants): plain positional descent from
`node` to the densest-level node `index` base positions further right. -/
def getTo (h : Heap) (node : Option Ptr) (index : Int) : Except Err (Option Ptr) := do
  let (node, index) ← getToLoop h (walkFuel h) node index
  getToDense h (walkFuel h) node index

/-- Descent loop of `getToWithPrevIndices`: as `getToLoop`, but before
each step record the current node and accumulated position into
`prevs[li]` and `prevIndices[li]` (a write past the end of those arrays is
a Go slice panic). -/
def gtwpiLoop (h : Heap) :
    Nat → Option Ptr → Int → Nat → Int → List (Option Ptr) → List Int →
    Except Err (Option Ptr × Int × List (Option Ptr) × List Int)
  | 0, _, _, _, _, _, _ => .error .outOfFuel
  | fuel + 1, node, index, li, i, prevs, prevIndices => do
    let nd ← readNode h node
    match nd.nextLevel with
    | none => .ok (node, i, prevs, prevIndices)
    | some _ => do
      let prevs ← setI prevs (li : Int) node
      let prevIndices ← setI prevIndices (li : Int) i
      if index - i ≥ nd.elem ∧ nd.next.isSome then
        gtwpiLoop h fuel nd.next index li (i + nd.elem) prevs prevIndices
      else
        gtwpiLoop h fuel nd.nextLevel index (li + 1) i prevs prevIndices

/-- Densest-level walk of `getToWithPrevIndices`:
`for i < index { i++; node = node.next }`. -/
def gtwpiDense (h : Heap) : Nat → Option Ptr → Int → Int → Except Err (Option Ptr)
  | 0, _, _, _ => .error .outOfFuel
  | fuel + 1, node, i, index =>
    if i < index then do
      let nd ← readNode h node
      gtwpiDense h fuel nd.next (i + 1) index
    else .ok node

/-- `getToWithPrevIndices` (identical in both variants): recording
positional descent. -/
def getToWithPrevIndices (h : Heap) (node : Option Ptr) (index : Int)
    (prevs : List (Option Ptr)) (prevIndices : List Int) :
    Except Err (Option Ptr × List (Option Ptr) × List Int) := do
  let (node, i, prevs, prevIndices) ← gtwpiLoop h (walkFuel h) node index 0 0 prevs prevIndices
  let node ← gtwpiDense h (walkFuel h) node i index
  .ok (node, prevs, prevIndices)

/-- Go's builtin `copy(dst, src)`: overwrite the first
`min |dst| |src|` entries of `dst` with those of `src`. -/
def copyInto (dst src : List α) : List α :=
  src.take dst.length ++ dst.drop src.length

/-- Resizing step of `copyToCache`: append zero values or cut, so the
stored array matches the length of the recorded one. -/
def resizeTo (xs : List α) (n : Nat) (pad : α) : List α :=
  if xs.length < n then xs ++ List.replicate (n - xs.length) pad
  else xs.take n

/-- `copyToCache` (identical in both variants): create the cache on first
use, otherwise resize its arrays to the length of the recorded ones and
overwrite them, storing the new index. -/
def copyToCache (cache : Option indexCache) (index : Int)
    (prevs : List (Option Ptr)) (prevIndices : List Int) : Option indexCache :=
  match cache with
  | none => some { index := index, prevs := prevs, prevIndices := prevIndices }
  | some c =>
    some { index := index,
           prevs := copyInto (resizeTo c.prevs prevs.length none) prevs,
           prevIndices := copyInto (resizeTo c.prevIndices prevIndices.length 0) prevIndices }

/-- `insertAfter`: splice `after` directly after `node` on its level. -/
def insertAfter (h : Heap) (node after : Ptr) : Except Err Heap := do
  let ndNode ← readNode h (some node)
  let ndAfter ← readNode h (some after)
  let h ← writeNode h (some after) { ndAfter with next := ndNode.next }
  writeNode h (some node) { ndNode with next := some after }

/-- `singleton`: allocate a single node carrying an element. -/
def singleton (h : Heap) (elem : Int) : Ptr × Heap :=
  alloc h { elem := elem, next := none, nextLevel := none }

/-- `distance` (identical in both variants): number of base-level
positions from `fromP` to `toP` along one level, summing stored distances
(1 per hop on the densest level); running off the level end is the
internal-error panic of the source. -/
def distance (h : Heap) : Nat → Ptr → Ptr → Except Err Int
  | 0, _, _ => .error .outOfFuel
  | fuel + 1, fromP, toP =>
    if fromP = toP then .ok 0
    else do
      let nd ← readNode h (some fromP)
      let d : Int := if nd.nextLevel.isNone then 1 else nd.elem
      match nd.next with
      | some nx => do
        let rest ← distance h fuel nx toP
        .ok (d + rest)
      | none => .error .internalInvariant

/-- `addNRootLevels` (identical in both variants): `n` times, clone the
root node one level down and clear the root's successor; the root pointer
itself is reused as the new top. -/
def addNRootLevels (h : Heap) (root : Option Ptr) : Nat → Except Err Heap
  | 0 => .ok h
  | n + 1 => do
    let rt ← readNode h root
    let (cloneP, h) := alloc h rt
    let h ← writeNode h root { rt with nextLevel := some cloneP, next := none }
    addNRootLevels h root n

/-- The opening step of `addSparserLevel`: when `level` exceeds the
current level count, invalidate the cache, grow the root by the
difference and record the new level count. -/
def growForLevel (l : ISkipList) (level : Int) : Except Err ISkipList :=
  if level > l.nLevels then do
    let cache := l.cache.map indexCache.invalidate
    let h ← addNRootLevels l.heap l.root (level - l.nLevels).toNat
    .ok { l with heap := h, cache := cache, nLevels := level }
  else .ok l

/-- `addSparserLevel` (identical in both variants): clone `node` one level
up at `level`, growing the root (and invalidating the cache, via
`growForLevel`) when `level` exceeds the current level count, splicing the
clone after `prevAtLevel` (or directly after the root when there is no
recorded prev) and fixing the distances on that level from the distance
measured one level below. -/
def addSparserLevel (l : ISkipList) (prevAtLevel : Option Ptr) (node : Ptr)
    (level index : Int) : Except Err (ISkipList × Ptr) := do
  let l ← growForLevel l level
  let ndNode ← readNode l.heap (some node)
  match prevAtLevel with
  | none => do
    let ch := alloc l.heap { ndNode with nextLevel := some node, next := none }
    let cloneP := ch.1
    let h := ch.2
    let rtNd ← readNode h l.root
    let h ← writeNode h l.root { rtNd with next := some cloneP, elem := index }
    .ok ({ l with heap := h }, cloneP)
  | some prevP => do
    let prevNd ← readNode l.heap (some prevP)
    let oldNext := prevNd.next
    let ch := alloc l.heap { ndNode with nextLevel := some node, next := oldNext }
    let cloneP := ch.1
    let h := ch.2
    let h ← writeNode h (some prevP) { prevNd with next := some cloneP }
    let d ←
      match prevNd.nextLevel with
      | none => Except.error Err.runtimeFault
      | some pn => distance h (walkFuel h) pn node
    let h ←
      if oldNext.isSome then do
        let cl ← readNode h (some cloneP)
        writeNode h (some cloneP) { cl with elem := prevNd.elem - d + 1 }
      else .ok h
    let prevNd2 ← readNode h (some prevP)
    let h ← writeNode h (some prevP) { prevNd2 with elem := d }
    .ok ({ l with heap := h }, cloneP)

/-- The level loop shared textually by `Insert` and `PushBack`:
`for i := 1; i < maxLevels && i <= nlev; i++` add a sparser level for the
new node, consuming the recorded prevs from the densest up. Returns the
updated list and the remaining `prevsI`. -/
def insertLevelsLoop (index nlev : Int) (prevs : List (Option Ptr)) :
    Nat → Int → ISkipList → Ptr → Int → Except Err (ISkipList × Int)
  | 0, _, _, _, _ => .error .outOfFuel
  | fuel + 1, i, l, n, prevsI =>
    if i < maxLevels ∧ i ≤ nlev then do
      let (p, prevsI) ←
        if prevsI ≥ 0 then do
          let p ← getI prevs prevsI
          Except.ok (p, prevsI - 1)
        else Except.ok ((none : Option Ptr), prevsI)
      let (l, n') ← addSparserLevel l p n i index
      insertLevelsLoop index nlev prevs fuel (i + 1) l n' prevsI
    else .ok (l, prevsI)

/-- The final loop shared by `Insert` and `PushBack`:
`for ; prevsI >= 0; prevsI--` increment the stored distance of each
remaining recorded prev, whose span now contains one more position. -/
def bumpPrevsLoop (prevs : List (Option Ptr)) :
    Nat → Heap → Int → Except Err Heap
  | 0, _, _ => .error .outOfFuel
  | fuel + 1, h, prevsI =>
    if prevsI ≥ 0 then do
      let p ← getI prevs prevsI
      let nd ← readNode h p
      let h ← writeNode h p { nd with elem := nd.elem + 1 }
      bumpPrevsLoop prevs fuel h (prevsI - 1)
    else .ok h

/-- The guard `l.cache != nil && l.cache.index >= v` used by the cache
invalidation checks. -/
def cacheIndexGE (c : Option indexCache) (v : Int) : Bool :=
  match c with
  | some c => c.index ≥ v
  | none => false

/-- The guard `l.cache != nil && l.cache.index > v` of the src/iskiplist.go
`Insert`. -/
def cacheIndexGT (c : Option indexCache) (v : Int) : Bool :=
  match c with
  | some c => c.index > v
  | none => false

namespace Core

/-- `getToWithPrevIndicesTryingCache` (src/unnamed/part_001): when a valid
non-empty cache precedes the target, descend from its sparsest recorded
node with its recorded offset and shift the captured positions by that
offset; otherwise descend from the root. `Insert` and `PushBack` of this
variant inline the same conditional verbatim, so they reuse this
definition. -/
def getToWithPrevIndicesTryingCache (l : ISkipList) (i : Int)
    (prevs : List (Option Ptr)) (prevIndices : List Int) :
    Except Err (Option Ptr × List (Option Ptr) × List Int) :=
  match l.cache with
  | some c =>
    if c.isValid ∧ c.prevs.length > 0 ∧ c.index ≤ i then do
      let p ← getI c.prevs 0
      let pi ← getI c.prevIndices 0
      let (node, prevs, prevIndices) ← getToWithPrevIndices l.heap p (i - pi) prevs prevIndices
      .ok (node, prevs, prevIndices.map (· + pi))
    else getToWithPrevIndices l.heap l.root i prevs prevIndices
  | none => getToWithPrevIndices l.heap l.root i prevs prevIndices

/-- `retrieve` (src/unnamed/part_001): plain descent for small indices;
otherwise a recording descent (possibly seeded from the cache) whose
result is stored back into the cache. The local `prevs`/`prevIndices`
arrays are allocated with the current level count (a negative count would
make Go's `make` panic). -/
def retrieve (l : ISkipList) (i : Int) : Except Err (Option Ptr × ISkipList) :=
  if i < minIndexToCache then do
    let node ← getTo l.heap l.root i
    .ok (node, l)
  else
    if l.nLevels < 0 then .error .runtimeFault
    else do
      let prevs := List.replicate l.nLevels.toNat (none : Option Ptr)
      let prevIndices := List.replicate l.nLevels.toNat (0 : Int)
      let (node, prevs, prevIndices) ← getToWithPrevIndicesTryingCache l i prevs prevIndices
      .ok (node, { l with cache := copyToCache l.cache i prevs prevIndices })

/-- `At` (src/unnamed/part_001). -/
def At (l : ISkipList) (i : Int) : Except Err (Int × ISkipList) :=
  if i < 0 ∨ i ≥ l.length then .error .outOfBounds
  else do
    let (node, l) ← retrieve l i
    let nd ← readNode l.heap node
    .ok (nd.elem, l)

/-- `Set` (src/unnamed/part_001). -/
def Set (l : ISkipList) (i v : Int) : Except Err ISkipList :=
  if i < 0 ∨ i ≥ l.length then .error .outOfBounds
  else do
    let (node, l) ← retrieve l i
    let nd ← readNode l.heap node
    let h ← writeNode l.heap node { nd with elem := v }
    .ok { l with heap := h }

/-- The chain `var rt = &listNode{}` wrapped `nLevels` times by
`rt = &listNode{nextLevel: rt}` in `insertAtBeginning`. -/
def buildRt (h : Heap) : Nat → Ptr × Heap
  | 0 => alloc h { elem := 0, next := none, nextLevel := none }
  | k + 1 =>
    let (rt, h) := buildRt h k
    alloc h { elem := 0, next := none, nextLevel := some rt }

/-- First loop of `insertAtBeginning`
(`for i := 0; i < int(l.nLevels)-oldrl; i++`): on the sparser levels the
old root does not keep, the new root takes over the old root's successor
with distance one larger. -/
def iabLoopA (h : Heap) : Nat → Option Ptr → Option Ptr →
    Except Err (Heap × Option Ptr × Option Ptr)
  | 0, r, n => .ok (h, r, n)
  | k + 1, r, n => do
    let rnd ← readNode h r
    let nnd ← readNode h n
    let h ← writeNode h n { nnd with next := rnd.next, elem := rnd.elem + 1 }
    iabLoopA h k rnd.nextLevel nnd.nextLevel

/-- Second loop of `insertAtBeginning` (`for n.nextLevel != nil`): on the
remaining non-densest levels, point the new root at the old root with
distance 1. -/
def iabLoopB : Nat → Heap → Option Ptr → Option Ptr →
    Except Err (Heap × Option Ptr × Option Ptr)
  | 0, _, _, _ => .error .outOfFuel
  | fuel + 1, h, r, n => do
    let nnd ← readNode h n
    match nnd.nextLevel with
    | none => .ok (h, r, n)
    | some nl => do
      let h ← writeNode h n { nnd with next := r, elem := 1 }
      let rnd ← readNode h r
      iabLoopB fuel h rnd.nextLevel (some nl)

/-- `insertAtBeginning` (src/unnamed/part_001): invalidate the cache; for
an empty list allocate a singleton root; otherwise build a full-height new
root chain, re-draw the level count `oldrl` of the displaced old root,
stitch the two towers together and, when `oldrl` exceeds the current level
count, grow the root by the difference. -/
def insertAtBeginning (l : ISkipList) (elem : Int) : Except Err ISkipList := do
  let l := { l with cache := l.cache.map indexCache.invalidate }
  if l.length == (0 : Int) then
    let sg := ISL.singleton l.heap elem
    .ok { l with root := some sg.1, heap := sg.2 }
  else do
    let rth := buildRt l.heap l.nLevels.toNat
    let rt := rth.1
    let tossed := nTosses l.rand
    let oldrl := tossed.1
    let rand := tossed.2
    let (h, r, n) ← iabLoopA rth.2 (l.nLevels - oldrl).toNat l.root (some rt)
    let (h, r, n) ← iabLoopB (walkFuel h) h r n
    let nnd ← readNode h n
    let h ← writeNode h n { nnd with next := r, elem := elem }
    let l := { l with heap := h, root := some rt, rand := rand }
    if oldrl > l.nLevels then do
      let h ← addNRootLevels l.heap l.root (oldrl - l.nLevels).toNat
      .ok { l with heap := h, nLevels := l.nLevels + (oldrl - l.nLevels) }
    else .ok l

/-- `PushFront` (src/unnamed/part_001): `insertAtBeginning` then increment
the length. -/
def PushFront (l : ISkipList) (elem : Int) : Except Err ISkipList := do
  let l ← insertAtBeginning l elem
  .ok { l with length := l.length + 1 }

/-- Common tail of `Insert` and `PushBack` after the descent: splice a
fresh densest-level node after the found node, draw the level sample and
add the sparser levels, then bump the distances of the recorded prevs the
level loop did not consume. -/
def spliceAndLift (l : ISkipList) (node : Option Ptr) (prevs : List (Option Ptr))
    (index elem : Int) : Except Err ISkipList := do
  let ah := alloc l.heap { elem := elem, next := none, nextLevel := none }
  let after := ah.1
  let nodeP ←
    match node with
    | some p => Except.ok p
    | none => Except.error Err.runtimeFault
  let h ← insertAfter ah.2 nodeP after
  let tossed := nTosses l.rand
  let nlev := tossed.1
  let l := { l with heap := h, rand := tossed.2 }
  let (l, prevsI) ← insertLevelsLoop index nlev prevs 31 1 l after ((prevs.length : Int) - 1)
  let h ← bumpPrevsLoop prevs (prevs.length + 1) l.heap prevsI
  .ok { l with heap := h }

/-- `Insert` (src/unnamed/part_001): reject `index < 0` and
`index > length`; invalidate the cache when its index is at or past the
insertion point; delegate position 0 to `insertAtBeginning`; otherwise
descend to `index-1` (possibly from the cache), record the descent in the
cache when `index-1 ≥ 8`, and splice. -/
def Insert (l : ISkipList) (index elem : Int) : Except Err ISkipList := do
  if index < 0 ∨ index > l.length then .error .outOfBounds
  else
  let l := if cacheIndexGE l.cache index then { l with cache := l.cache.map indexCache.invalidate } else l
  if index == (0 : Int) then do
    let l ← insertAtBeginning l elem
    .ok { l with length := l.length + 1 }
  else
  let l := { l with length := l.length + 1 }
  if l.nLevels < 0 then .error .runtimeFault
  else do
    let prevs := List.replicate l.nLevels.toNat (none : Option Ptr)
    let prevIndices := List.replicate l.nLevels.toNat (0 : Int)
    let (node, prevs, prevIndices) ← getToWithPrevIndicesTryingCache l (index - 1) prevs prevIndices
    let l := if index - 1 ≥ minIndexToCache then { l with cache := copyToCache l.cache (index - 1) prevs prevIndices } else l
    spliceAndLift l node prevs index elem

/-- `PushBack` (src/unnamed/part_001): insert at position `length` using
the same descent-and-splice sequence as `Insert` (its cache seeding is the
inlined body of `getToWithPrevIndicesTryingCache`). -/
def PushBack (l : ISkipList) (elem : Int) : Except Err ISkipList := do
  let index := l.length
  if index == (0 : Int) then do
    let l ← insertAtBeginning l elem
    .ok { l with length := l.length + 1 }
  else
  let l := { l with length := l.length + 1 }
  if l.nLevels < 0 then .error .runtimeFault
  else do
    let prevs := List.replicate l.nLevels.toNat (none : Option Ptr)
    let prevIndices := List.replicate l.nLevels.toNat (0 : Int)
    let (node, prevs, prevIndices) ← getToWithPrevIndicesTryingCache l (index - 1) prevs prevIndices
    let l := if index - 1 ≥ minIndexToCache then { l with cache := copyToCache l.cache (index - 1) prevs prevIndices } else l
    spliceAndLift l node prevs index elem

/-- Level-stripping loop of `removeFirst` (src/unnamed/part_001): drop
root levels that have no successor, decrementing the level count. -/
def rfStrip (h : Heap) : Nat → Option Ptr → Int → Except Err (Option Ptr × Int)
  | 0, _, _ => .error .outOfFuel
  | fuel + 1, root, nLevels => do
    let nd ← readNode h root
    if nd.next.isNone ∧ nd.nextLevel.isSome then rfStrip h fuel nd.nextLevel (nLevels - 1)
    else .ok (root, nLevels)

/-- Main loop of `removeFirst` (src/unnamed/part_001): down the root
tower, give every level whose head spans more than one position a
replacement node at position 1 carrying distance one less, and chain the
replacement nodes of successive levels by `nextLevel`. -/
def rfLoop : Nat → Heap → Option Ptr → Option Ptr →
    Except Err (Heap × Option Ptr × Option Ptr)
  | 0, _, _, _ => .error .outOfFuel
  | fuel + 1, h, prev, n => do
    let nd ← readNode h n
    match nd.nextLevel with
    | none => .ok (h, prev, n)
    | some _ => do
      let h ←
        if nd.elem > 1 then do
          let (newP, h) := alloc h { elem := nd.elem - 1, next := nd.next, nextLevel := none }
          writeNode h n { nd with next := some newP }
        else Except.ok h
      let nd2 ← readNode h n
      let h ←
        match prev with
        | some _ => do
          let pnd ← readNode h prev
          writeNode h prev { pnd with nextLevel := nd2.next }
        | none => Except.ok h
      rfLoop fuel h nd2.next nd2.nextLevel

/-- `removeFirst` (src/unnamed/part_001): strip successor-less root
levels, rebuild the tower of the node at position 1, and advance the root. -/
def removeFirst (l : ISkipList) : Except Err (Int × ISkipList) := do
  let (root, nLevels) ← rfStrip l.heap (walkFuel l.heap) l.root l.nLevels
  let (h, prev, n) ← rfLoop (walkFuel l.heap) l.heap none root
  let nd ← readNode h n
  let h ←
    match prev with
    | some _ => do
      let pnd ← readNode h prev
      writeNode h prev { pnd with nextLevel := nd.next }
    | none => Except.ok h
  let rtNd ← readNode h root
  .ok (nd.elem, { l with heap := h, root := rtNd.next, nLevels := nLevels })

/-- Per-level loop of `remove` (src/unnamed/part_001), from the densest
recorded prev to the sparsest: when the prev's successor sits exactly at
the removed position, merge its span into the prev and link past it;
when the prev's span covers the removed position, shorten it by one; any
other configuration is the internal-error panic. -/
def removeLoop (index : Int) (prevs : List (Option Ptr)) (prevIndices : List Int) :
    Nat → Heap → Except Err Heap
  | 0, h => .ok h
  | k + 1, h => do
    let p ← getI prevs (k : Int)
    let pi ← getI prevIndices (k : Int)
    let pnd ← readNode h p
    let h ←
      match pnd.next with
      | none => Except.ok h
      | some nxt => do
        if index == pnd.elem + pi then do
          let nnd ← readNode h (some nxt)
          writeNode h p { pnd with elem := nnd.elem + pnd.elem - 1, next := nnd.next }
        else if index < pnd.elem + pi then
          writeNode h p { pnd with elem := pnd.elem - 1 }
        else Except.error Err.internalInvariant
    removeLoop index prevs prevIndices k h

/-- `remove` (src/unnamed/part_001): unlink the densest-level node after
`node` and repair the distances along the recorded prevs. It touches only
the heap. -/
def remove (h : Heap) (node : Option Ptr) (index : Int)
    (prevs : List (Option Ptr)) (prevIndices : List Int) : Except Err Heap := do
  let nd ← readNode h node
  let nnd ← readNode h nd.next
  let h ← writeNode h node { nd with next := nnd.next }
  removeLoop index prevs prevIndices prevs.length h

/-- `Remove` (src/unnamed/part_001): bounds check, cache invalidation for
removals at or before the cached index, the singleton and head special
cases, and otherwise a recording descent to `index-1` followed by
`remove`, the length decrement and a cache update to the predecessor. -/
def Remove (l : ISkipList) (index : Int) : Except Err (Int × ISkipList) := do
  if index < 0 ∨ index ≥ l.length then .error .outOfBounds
  else
  let l := if cacheIndexGE l.cache index then { l with cache := l.cache.map indexCache.invalidate } else l
  if l.length - 1 == (0 : Int) then do
    let rtNd ← readNode l.heap l.root
    .ok (rtNd.elem, { l with length := l.length - 1, root := none, nLevels := 0 })
  else if index == (0 : Int) then do
    let (v, l) ← removeFirst l
    .ok (v, { l with length := l.length - 1 })
  else
  if l.nLevels < 0 then .error .runtimeFault
  else do
    let prevs := List.replicate l.nLevels.toNat (none : Option Ptr)
    let prevIndices := List.replicate l.nLevels.toNat (0 : Int)
    let (node, prevs, prevIndices) ← getToWithPrevIndices l.heap l.root (index - 1) prevs prevIndices
    let nd ← readNode l.heap node
    let nnd ← readNode l.heap nd.next
    let e := nnd.elem
    let h ← remove l.heap node index prevs prevIndices
    let cache := copyToCache l.cache (index - 1) prevs prevIndices
    .ok (e, { l with heap := h, length := l.length - 1, cache := cache })

/-- `Clear` (src/unnamed/part_001). -/
def Clear (l : ISkipList) : ISkipList :=
  { l with length := 0, nLevels := 0, root := none, cache := none }

/-- The root-advancing loop of `shrink`. -/
def shrinkLoop (h : Heap) : Nat → Option Ptr → Except Err (Option Ptr)
  | 0, root => .ok root
  | k + 1, root => do
    let nd ← readNode h root
    shrinkLoop h k nd.nextLevel

/-- `shrink` (src/unnamed/part_001): advance the root down the given
number of levels and subtract them from the level count. -/
def shrink (l : ISkipList) (levels : Int) : Except Err ISkipList := do
  let root ← shrinkLoop l.heap levels.toNat l.root
  .ok { l with root := root, nLevels := l.nLevels - levels }

/-- The `for _, p := range prevs { p.next = nil }` loop of `Truncate`. -/
def nilPrevs (h : Heap) : List (Option Ptr) → Except Err Heap
  | [] => .ok h
  | p :: rest => do
    let nd ← readNode h p
    let h ← writeNode h p { nd with next := none }
    nilPrevs h rest

/-- `Truncate` (src/unnamed/part_001): bounds check, no-op at full length,
`Clear` at zero; otherwise invalidate the cache when its index reaches the
cut, descend (possibly from the cache) to `n-1`, cut every level there,
set the length, and drop the excess sparsest levels when the bulk
estimator for the new length falls below the current level count. -/
def Truncate (l : ISkipList) (n : Int) : Except Err ISkipList := do
  if n < 0 ∨ n > l.length then .error .outOfBounds
  else
  if n ≥ l.length then .ok l
  else if n == (0 : Int) then .ok (Clear l)
  else
  let l := if cacheIndexGE l.cache n then { l with cache := l.cache.map indexCache.invalidate } else l
  if l.nLevels < 0 then .error .runtimeFault
  else do
    let prevs := List.replicate l.nLevels.toNat (none : Option Ptr)
    let prevIndices := List.replicate l.nLevels.toNat (0 : Int)
    let (node, prevs, _) ← getToWithPrevIndicesTryingCache l (n - 1) prevs prevIndices
    let nd ← readNode l.heap node
    let h ← writeNode l.heap node { nd with next := none }
    let h ← nilPrevs h prevs
    let l := { l with heap := h, length := n }
    let est := estimateNLevelsFromLength l.rand n
    let newNLevels := est.1
    let l := { l with rand := est.2 }
    if newNLevels < l.nLevels then shrink l (l.nLevels - newNLevels)
    else .ok l

/-- `Swap` (src/unnamed/part_001): bounds checks, normalize the order,
recording descent to the first index (cached when it is at least 8), a
plain descent from its sparsest recorded prev to the second, and exchange
the two elements. -/
def Swap (l : ISkipList) (index1 index2 : Int) : Except Err ISkipList := do
  if index1 < 0 ∨ index1 ≥ l.length then .error .outOfBounds
  else if index2 < 0 ∨ index2 ≥ l.length then .error .outOfBounds
  else
  if index1 == index2 then .ok l
  else
  let (index1, index2) := if index1 > index2 then (index2, index1) else (index1, index2)
  if l.nLevels < 0 then .error .runtimeFault
  else do
    let prevs := List.replicate l.nLevels.toNat (none : Option Ptr)
    let prevIndices := List.replicate l.nLevels.toNat (0 : Int)
    let (node1, prevs, prevIndices) ← getToWithPrevIndices l.heap l.root index1 prevs prevIndices
    let l := if index1 ≥ minIndexToCache then { l with cache := copyToCache l.cache index1 prevs prevIndices } else l
    let (p, pi) ←
      if prevs.length > 0 then do
        let p ← getI prevs 0
        let pi ← getI prevIndices 0
        Except.ok (p, pi)
      else Except.ok (l.root, (0 : Int))
    let node2 ← getTo l.heap p (index2 - pi)
    let nd1 ← readNode l.heap node1
    let nd2 ← readNode l.heap node2
    let h ← writeNode l.heap node1 { nd1 with elem := nd2.elem }
    let h ← writeNode h node2 { nd2 with elem := nd1.elem }
    .ok { l with heap := h }

/-- `PopFront` (src/unnamed/part_001): on the empty list return the zero
value and false; otherwise `Remove(0)`. -/
def PopFront (l : ISkipList) : Except Err (Int × Bool × ISkipList) :=
  if l.length == (0 : Int) then .ok (0, false, l)
  else do
    let (r, l) ← Remove l 0
    .ok (r, true, l)

/-- `PopBack` (src/unnamed/part_001): on the empty list return the zero
value and false; otherwise `Remove(length-1)`. -/
def PopBack (l : ISkipList) : Except Err (Int × Bool × ISkipList) :=
  if l.length == (0 : Int) then .ok (0, false, l)
  else do
    let (r, l) ← Remove l (l.length - 1)
    .ok (r, true, l)

/-- Densest-level copying loop of `CopyRangeToSlice`. -/
def crtsLoop (h : Heap) : Nat → Option Ptr → Nat → List Int → Except Err (List Int)
  | 0, _, _, slice => .ok slice
  | k + 1, node, i, slice => do
    let nd ← readNode h node
    let slice ← setI slice (i : Int) nd.elem
    crtsLoop h k nd.next (i + 1) slice

/-- `CopyRangeToSlice` (src/unnamed/part_001): permissive bounds checks
(`from` and `to` may equal the length), early return on an empty range,
otherwise locate `from` via `retrieve` and copy `to-from` elements into
the slice. -/
def CopyRangeToSlice (l : ISkipList) (frm tto : Int) (slice : List Int) :
    Except Err (List Int × ISkipList) := do
  if frm < 0 ∨ frm > l.length then .error .outOfBounds
  else if tto < 0 ∨ tto > l.length then .error .outOfBounds
  else
  if tto ≤ frm then .ok (slice, l)
  else do
    let (node, l) ← retrieve l frm
    let slice ← crtsLoop l.heap (tto - frm).toNat node 0 slice
    .ok (slice, l)

/-- Visiting loop of `IterateRange`: the visitor receives the element,
returns its (possibly mutated) value and whether to continue. -/
def iterLoop (f : Int → Int × Bool) : Nat → Heap → Option Ptr → Except Err Heap
  | 0, h, _ => .ok h
  | k + 1, h, node => do
    let nd ← readNode h node
    let (v, cont) := f nd.elem
    let h ← writeNode h node { nd with elem := v }
    if cont then iterLoop f k h nd.next else .ok h

/-- `IterateRange` (src/unnamed/part_001): permissive bounds checks, early
return on an empty range, otherwise locate `from` via `retrieve` and visit
`to-from` elements, stopping when the visitor returns false. -/
def IterateRange (l : ISkipList) (frm tto : Int) (f : Int → Int × Bool) :
    Except Err ISkipList := do
  if frm < 0 ∨ frm > l.length then .error .outOfBounds
  else if tto < 0 ∨ tto > l.length then .error .outOfBounds
  else
  if tto ≤ frm then .ok l
  else do
    let (node, l) ← retrieve l frm
    let h ← iterLoop f (tto - frm).toNat l.heap node
    .ok { l with heap := h }

end Core

namespace GV

/-- The cache-seeded descent inlined by `retrieve`, `Insert` and
`PushBack` of src/iskiplist.go: unlike the part_001 variant, the cache is
consulted whenever it is valid (an empty prev array falls back to the
root), and the captured positions are shifted by `cache.prevIndices[0]`
read again from the cache. -/
def tryCache (l : ISkipList) (i : Int)
    (prevs : List (Option Ptr)) (prevIndices : List Int) :
    Except Err (Option Ptr × List (Option Ptr) × List Int) :=
  match l.cache with
  | some c =>
    if c.isValid ∧ c.index ≤ i then do
      let (p, pi) ←
        if c.prevs.length > 0 then do
          let p ← getI c.prevs 0
          let pi ← getI c.prevIndices 0
          Except.ok (p, pi)
        else Except.ok (l.root, (0 : Int))
      let (node, prevs, prevIndices) ← getToWithPrevIndices l.heap p (i - pi) prevs prevIndices
      let prevIndices ←
        if prevIndices.length > 0 then do
          let c0 ← getI c.prevIndices 0
          Except.ok (prevIndices.map (· + c0))
        else Except.ok prevIndices
      .ok (node, prevs, prevIndices)
    else getToWithPrevIndices l.heap l.root i prevs prevIndices
  | none => getToWithPrevIndices l.heap l.root i prevs prevIndices

/-- `retrieve` (src/iskiplist.go). -/
def retrieve (l : ISkipList) (i : Int) : Except Err (Option Ptr × ISkipList) :=
  if i < minIndexToCache then do
    let node ← getTo l.heap l.root i
    .ok (node, l)
  else
    if l.nLevels < 0 then .error .runtimeFault
    else do
      let prevs := List.replicate l.nLevels.toNat (none : Option Ptr)
      let prevIndices := List.replicate l.nLevels.toNat (0 : Int)
      let (node, prevs, prevIndices) ← tryCache l i prevs prevIndices
      .ok (node, { l with cache := copyToCache l.cache i prevs prevIndices })

/-- `insertAtBeginning` (src/iskiplist.go): as the part_001 version, but
the empty-list case is taken before the cache invalidation, and the
surrounding callers (not this function) maintain the length. -/
def insertAtBeginning (l : ISkipList) (elem : Int) : Except Err ISkipList := do
  if l.length == (0 : Int) then
    let (rt, h) := ISL.singleton l.heap elem
    .ok { l with root := some rt, heap := h }
  else do
    let l := { l with cache := l.cache.map indexCache.invalidate }
    let (rt, h) := Core.buildRt l.heap l.nLevels.toNat
    let (oldl, rand) := nTosses l.rand
    let (h, r, n) ← Core.iabLoopA h (l.nLevels - oldl).toNat l.root (some rt)
    let (h, r, n) ← Core.iabLoopB (walkFuel h) h r n
    let nnd ← readNode h n
    let h ← writeNode h n { nnd with next := r, elem := elem }
    let l := { l with heap := h, root := some rt, rand := rand }
    if oldl > l.nLevels then do
      let h ← addNRootLevels l.heap l.root (oldl - l.nLevels).toNat
      .ok { l with heap := h, nLevels := l.nLevels + (oldl - l.nLevels) }
    else .ok l

/-- `Insert` (src/iskiplist.go): the bounds check rejects only
`index > length` (there is no `index < 0` test), the cache is invalidated
when its index is strictly greater than the insertion point, the length is
incremented before the position-0 dispatch, and the splice proceeds as in
the part_001 variant. -/
def Insert (l : ISkipList) (index elem : Int) : Except Err ISkipList := do
  if index > l.length then .error .outOfBounds
  else
  let l :=
    if cacheIndexGT l.cache index then
      { l with cache := l.cache.map indexCache.invalidate }
    else l
  let l := { l with length := l.length + 1 }
  if index == (0 : Int) then insertAtBeginning l elem
  else
  if l.nLevels < 0 then .error .runtimeFault
  else do
    let prevs := List.replicate l.nLevels.toNat (none : Option Ptr)
    let prevIndices := List.replicate l.nLevels.toNat (0 : Int)
    let (node, prevs, prevIndices) ← tryCache l (index - 1) prevs prevIndices
    let l := if index - 1 ≥ minIndexToCache then { l with cache := copyToCache l.cache (index - 1) prevs prevIndices } else l
    match node with
    | none => .error .internalInvariant
    | some _ => Core.spliceAndLift l node prevs index elem

/-- Level-counting loop of `removeFirst` (src/iskiplist.go): walk the root
tower down and count how many levels lack a successor at distance 1. -/
def rfCount (h : Heap) : Nat → Option Ptr → Int → Except Err (Option Ptr × Int)
  | 0, _, _ => .error .outOfFuel
  | fuel + 1, n, nLevels => do
    let nd ← readNode h n
    match nd.nextLevel with
    | none => .ok (n, nLevels)
    | some nl =>
      let nLevels := if nd.next.isNone ∨ nd.elem ≠ 1 then nLevels - 1 else nLevels
      rfCount h fuel (some nl) nLevels

/-- `removeFirst` (src/iskiplist.go): compute the highest level of the
node at position 1, advance the root to it on the densest level, and grow
its tower back to full height with `addNRootLevels`. -/
def removeFirst (l : ISkipList) : Except Err (Int × ISkipList) := do
  let (n, nLevels) ← rfCount l.heap (walkFuel l.heap) l.root l.nLevels
  let nd ← readNode l.heap n
  let l := { l with root := nd.next }
  if l.root.isSome then do
    let h ← addNRootLevels l.heap l.root (l.nLevels - nLevels).toNat
    .ok (nd.elem, { l with heap := h })
  else .ok (nd.elem, l)

/-- `shrinkBy` (src/iskiplist.go): draw a fresh level sample and return
how many levels to drop, clamped at zero. -/
def shrinkBy (l : ISkipList) : Int × Pcg32 :=
  let (levs, rand) := nTosses l.rand
  let levelsToRemove := levs - l.nLevels + 1
  (if levelsToRemove < 0 then 0 else levelsToRemove, rand)

/-- `maybeShrink` (src/iskiplist.go): advance the root down `shrinkBy`
levels and subtract them from the level count. -/
def maybeShrink (l : ISkipList) : Except Err ISkipList := do
  let (k, rand) := shrinkBy l
  let l := { l with rand := rand }
  let root ← Core.shrinkLoop l.heap k.toNat l.root
  .ok { l with root := root, nLevels := l.nLevels - k }

/-- Per-level loop of `remove` (src/iskiplist.go): a prev at distance 1
absorbs its successor, any other prev with a successor shortens by one. -/
def removeLoop (prevs : List (Option Ptr)) : Nat → Heap → Except Err Heap
  | 0, h => .ok h
  | k + 1, h => do
    let p ← getI prevs (k : Int)
    let pnd ← readNode h p
    let h ←
      match pnd.next with
      | none => Except.ok h
      | some nxt => do
        if pnd.elem == (1 : Int) then do
          let nnd ← readNode h (some nxt)
          writeNode h p { pnd with elem := nnd.elem, next := nnd.next }
        else writeNode h p { pnd with elem := pnd.elem - 1 }
    removeLoop prevs k h

/-- `remove` (src/iskiplist.go): unlink the densest-level node after
`node`, repair the recorded prevs, then call `maybeShrink`, which draws a
fresh level sample after every such removal. -/
def remove (l : ISkipList) (node : Option Ptr) (prevs : List (Option Ptr)) :
    Except Err ISkipList := do
  let nd ← readNode l.heap node
  let nnd ← readNode l.heap nd.next
  let h ← writeNode l.heap node { nd with next := nnd.next }
  let h ← removeLoop prevs prevs.length h
  maybeShrink { l with heap := h }

/-- `Remove` (src/iskiplist.go): bounds check, cache invalidation,
decrement the length first; the now-empty case clears only the root, the
head case delegates to `removeFirst`, and the general case descends from
the root, removes, updates the cache and returns the element of the
predecessor node. -/
def Remove (l : ISkipList) (index : Int) : Except Err (Int × ISkipList) := do
  if index < 0 ∨ index ≥ l.length then .error .outOfBounds
  else
  let l := if cacheIndexGE l.cache index then { l with cache := l.cache.map indexCache.invalidate } else l
  let l := { l with length := l.length - 1 }
  if l.length == (0 : Int) then do
    let rtNd ← readNode l.heap l.root
    .ok (rtNd.elem, { l with root := none })
  else if index == (0 : Int) then removeFirst l
  else
  if l.nLevels < 0 then .error .runtimeFault
  else do
    let prevs := List.replicate l.nLevels.toNat (none : Option Ptr)
    let prevIndices := List.replicate l.nLevels.toNat (0 : Int)
    let (node, prevs, prevIndices) ← getToWithPrevIndices l.heap l.root (index - 1) prevs prevIndices
    let l ← remove l node prevs
    let l := { l with cache := copyToCache l.cache (index - 1) prevs prevIndices }
    let nd ← readNode l.heap node
    .ok (nd.elem, l)

/-- `PopFront` (src/iskiplist.go): zero value and false on the empty list,
otherwise `Remove(0)`. -/
def PopFront (l : ISkipList) : Except Err (Int × Bool × ISkipList) :=
  if l.length == (0 : Int) then .ok (0, false, l)
  else do
    let (r, l) ← Remove l 0
    .ok (r, true, l)

/-- `PopBack` (src/iskiplist.go): zero value and false on the empty list,
otherwise `Remove(length-1)`. -/
def PopBack (l : ISkipList) : Except Err (Int × Bool × ISkipList) :=
  if l.length == (0 : Int) then .ok (0, false, l)
  else do
    let (r, l) ← Remove l (l.length - 1)
    .ok (r, true, l)

/-- `CopyRangeToSlice` (src/iskiplist.go): this variant rejects
`from ≥ length` (its bounds check is `from < 0 || from >= l.length`),
then returns early on an empty range and otherwise copies as the part_001
version does. -/
def CopyRangeToSlice (l : ISkipList) (frm tto : Int) (slice : List Int) :
    Except Err (List Int × ISkipList) := do
  if frm < 0 ∨ frm ≥ l.length then .error .outOfBounds
  else if tto < 0 ∨ tto > l.length then .error .outOfBounds
  else
  if tto ≤ frm then .ok (slice, l)
  else do
    let (node, l) ← retrieve l frm
    let slice ← Core.crtsLoop l.heap (tto - frm).toNat node 0 slice
    .ok (slice, l)

/-- `IterateRange` (src/iskiplist.go): this variant rejects
`from ≥ length`, then returns early on an empty range and otherwise
visits as the part_001 version does. -/
def IterateRange (l : ISkipList) (frm tto : Int) (f : Int → Int × Bool) :
    Except Err ISkipList := do
  if frm < 0 ∨ frm ≥ l.length then .error .outOfBounds
  else if tto < 0 ∨ tto > l.length then .error .outOfBounds
  else
  if tto ≤ frm then .ok l
  else do
    let (node, l) ← retrieve l frm
    let h ← Core.iterLoop f (tto - frm).toNat l.heap node
    .ok { l with heap := h }

end GV

namespace SU

/-- Right-shifting loop of `SliceInsert`
(`for i := len(*a)-1; i > index; i--`). -/
def siLoop (index : Int) : Nat → List Int → Int → Except Err (List Int)
  | 0, _, _ => .error .outOfFuel
  | fuel + 1, a, i =>
    if i > index then do
      let v ← getI a (i - 1)
      let a ← setI a i v
      siLoop index fuel a (i - 1)
    else .ok a

/-- `SliceInsert` (src/sliceutils/sliceutils.go, first document): append
when inserting at the length, otherwise shift the tail right by one and
store the element; no bounds are checked beyond Go's own slice panics. -/
def SliceInsert (a : List Int) (index elem : Int) : Except Err (List Int) :=
  if (a.length : Int) == index then .ok (a ++ [elem])
  else do
    let last ← getI a ((a.length : Int) - 1)
    let a ← siLoop index (a.length + 2) a ((a.length : Int) - 1)
    let a ← setI a index elem
    .ok (a ++ [last])

/-- Left-shifting loop of `SliceRemove`
(`for i := index; i < len(*a)-1; i++`). -/
def srLoop : Nat → List Int → Int → Except Err (List Int)
  | 0, _, _ => .error .outOfFuel
  | fuel + 1, a, i =>
    if i < (a.length : Int) - 1 then do
      let v ← getI a (i + 1)
      let a ← setI a i v
      srLoop fuel a (i + 1)
    else .ok a

/-- `SliceRemove` (src/sliceutils/sliceutils.go, first document): read the
removed element, shift the tail left and cut the last slot, returning the
element. -/
def SliceRemove (a : List Int) (index : Int) : Except Err (Int × List Int) := do
  let e ← getI a index
  let a ← srLoop (a.length + 2) a index
  .ok (e, a.take (a.length - 1))

/-- `SliceSwap` (src/sliceutils/sliceutils.go). -/
def SliceSwap (a : List Int) (index1 index2 : Int) : Except Err (List Int) := do
  let v1 ← getI a index1
  let v2 ← getI a index2
  let a ← setI a index1 v2
  setI a index2 v1

/-- `OpKind` of the sliceutils test-op dispatcher. -/
inductive OpKind where
  | opInsert
  | opRemove
  | opSwap
deriving Repr, DecidableEq

/-- `Op` of sliceutils. -/
structure Op where
  Kind : OpKind
  Index1 : Int
  Index2 : Int
  Elem : Int
deriving Repr, DecidableEq

/-- `ApplyOpToSlice` (src/sliceutils/sliceutils.go): dispatch an op to the
corresponding slice operation. -/
def ApplyOpToSlice (op : Op) (a : List Int) : Except Err (List Int) :=
  match op.Kind with
  | .opInsert => SliceInsert a op.Index1 op.Elem
  | .opRemove => do
    let (_, a) ← SliceRemove a op.Index1
    .ok a
  | .opSwap => SliceSwap a op.Index1 op.Index2

end SU

namespace Buf

/-- `noHoldsBarredMaxLength` of the second document of
src/buffered/buffered.go. -/
def noHoldsBarredMaxLength : Int := 32

/-- `maxSliceLength` of the second document of src/buffered/buffered.go. -/
def maxSliceLength : Int := 64

/-- `BufferedISkipList` (src/buffered/buffered.go, second document): a
reversed head buffer, the core skip list, and a tail buffer. The Go field
`end` is a reserved word in Lean and is embedded as `endb`. -/
structure BufferedISkipList where
  start : List Int
  iskiplist : ISkipList
  endb : List Int
deriving Repr, DecidableEq

/-- The zero value `var sl BufferedISkipList`. -/
def emptyBuf : BufferedISkipList :=
  { start := [],
    iskiplist :=
      { length := 0, nLevels := 0, root := none,
        rand := { state := 0, increment := 0 }, cache := none, heap := [] },
    endb := [] }

/-- `Length`. -/
def Length (l : BufferedISkipList) : Int :=
  (l.start.length : Int) + l.iskiplist.length + (l.endb.length : Int)

/-- The drain loop of `checkStartSliceGrowth`
(`for _, v := range l.start { l.iskiplist.PushFront(v) }`). -/
def pushFrontAll (isl : ISkipList) : List Int → Except Err ISkipList
  | [] => .ok isl
  | v :: rest => do
    let isl ← Core.PushFront isl v
    pushFrontAll isl rest

/-- `checkStartSliceGrowth` (second document): at or above
`maxSliceLength`, push the whole reversed buffer onto the front of the
core and reset it. -/
def checkStartSliceGrowth (l : BufferedISkipList) : Except Err BufferedISkipList :=
  if (l.start.length : Int) ≥ maxSliceLength then do
    let isl ← pushFrontAll l.iskiplist l.start
    .ok { l with iskiplist := isl, start := [] }
  else .ok l

/-- `checkEndSliceGrowth` (second document): at or above `maxSliceLength`
this variant hits the leftover `panic("HERE")` before its drain code. -/
def checkEndSliceGrowth (l : BufferedISkipList) : Except Err BufferedISkipList :=
  if (l.endb.length : Int) ≥ maxSliceLength then .error .debugLeftover
  else .ok l

/-- `PushBack` (second document). -/
def PushBack (l : BufferedISkipList) (elem : Int) : Except Err BufferedISkipList := do
  let l ← checkEndSliceGrowth l
  .ok { l with endb := l.endb ++ [elem] }

/-- `PushFront` (second document). -/
def PushFront (l : BufferedISkipList) (elem : Int) : Except Err BufferedISkipList := do
  let l ← checkStartSliceGrowth l
  .ok { l with start := l.start ++ [elem] }

/-- `At` (second document): route by index range; a position `i` inside
the head buffer reads `start[len(start)-i-1]`. -/
def At (l : BufferedISkipList) (i : Int) : Except Err (Int × BufferedISkipList) := do
  if i < 0 ∨ i ≥ Length l then .error .outOfBounds
  else
  if i < (l.start.length : Int) then do
    let v ← getI l.start ((l.start.length : Int) - i - 1)
    .ok (v, l)
  else if i < (l.start.length : Int) + l.iskiplist.length then do
    let (v, isl) ← Core.At l.iskiplist (i - (l.start.length : Int))
    .ok (v, { l with iskiplist := isl })
  else do
    let v ← getI l.endb (i - (l.start.length : Int) - l.iskiplist.length)
    .ok (v, l)

/-- `Set` (second document): a position inside the head buffer writes
`start[i]` (the source does not reverse the index here). -/
def Set (l : BufferedISkipList) (i v : Int) : Except Err BufferedISkipList := do
  if i < 0 ∨ i ≥ Length l then .error .outOfBounds
  else
  if i < (l.start.length : Int) then do
    let start ← setI l.start i v
    .ok { l with start := start }
  else if i < (l.start.length : Int) + l.iskiplist.length then do
    let isl ← Core.Set l.iskiplist (i - (l.start.length : Int)) v
    .ok { l with iskiplist := isl }
  else do
    let endb ← setI l.endb (i - (l.start.length : Int) - l.iskiplist.length) v
    .ok { l with endb := endb }

/-- The migration loop of the large-`end` branch of `Insert`
(`for i := 0; i < index-len(l.start)-l.iskiplist.Length(); i++`): the
bound re-reads the core length, which grows with every `PushBack`. -/
def insEndLoop (index : Int) : Nat → BufferedISkipList → Int → Except Err BufferedISkipList
  | 0, _, _ => .error .outOfFuel
  | fuel + 1, l, i =>
    if i < index - (l.start.length : Int) - l.iskiplist.length then do
      let v ← getI l.endb i
      let isl ← Core.PushBack l.iskiplist v
      insEndLoop index fuel { l with iskiplist := isl } (i + 1)
    else .ok l

/-- Go reslicing `a[k:]`. -/
def dropFrom (a : List Int) (k : Int) : Except Err (List Int) :=
  if 0 ≤ k ∧ k ≤ (a.length : Int) then .ok (a.drop k.toNat)
  else .error .runtimeFault

/-- Go reslicing `a[:k]`. -/
def takeTo (a : List Int) (k : Int) : Except Err (List Int) :=
  if 0 ≤ k ∧ k ≤ (a.length : Int) then .ok (a.take k.toNat)
  else .error .runtimeFault

/-- The migration loop of the large-`start` branch of `Insert`
(`for i = 0; i < len(l.start)-index; i++` pushing `l.start[i]` onto the
front of the core; the bound is fixed, `start` is not written during the
loop). -/
def insStartMigrate (index : Int) (start : List Int) :
    Nat → ISkipList → Int → Except Err ISkipList
  | 0, _, _ => .error .outOfFuel
  | fuel + 1, isl, i =>
    if i < (start.length : Int) - index then do
      let v ← getI start i
      let isl ← Core.PushFront isl v
      insStartMigrate index start fuel isl (i + 1)
    else .ok isl

/-- `Insert` (second document): bounds check, spill checks, the trivial
prepend/append dispatches, in-place buffer insertion for a small target
buffer — the small-`end` branch passes `start` to `SliceInsert` — core
insertion for the middle range, and buffer migration into the core for a
large target buffer. -/
def Insert (l : BufferedISkipList) (index elem : Int) : Except Err BufferedISkipList := do
  if index < 0 ∨ index > Length l then .error .outOfBounds
  else do
  let l ← checkStartSliceGrowth l
  let l ← checkEndSliceGrowth l
  if index == (0 : Int) then PushFront l elem
  else if index == Length l then PushBack l elem
  else if index ≤ (l.start.length : Int) ∧ (l.start.length : Int) ≤ noHoldsBarredMaxLength then do
    let start ← SU.SliceInsert l.start ((l.start.length : Int) - index) elem
    .ok { l with start := start }
  else if index ≥ (l.start.length : Int) + l.iskiplist.length ∧ (l.endb.length : Int) ≤ noHoldsBarredMaxLength then do
    let start ← SU.SliceInsert l.start (index - (l.start.length : Int) - l.iskiplist.length) elem
    .ok { l with start := start }
  else if index > (l.start.length : Int) ∧ index < (l.start.length : Int) + l.iskiplist.length then do
    let isl ← Core.Insert l.iskiplist (index - (l.start.length : Int)) elem
    .ok { l with iskiplist := isl }
  else if index < (l.start.length : Int) then do
    let isl ← insStartMigrate index l.start (l.start.length + 2) l.iskiplist 0
    let isl ← Core.PushFront isl elem
    let start ← dropFrom l.start ((l.start.length : Int) - index)
    .ok { l with iskiplist := isl, start := start }
  else if index < (l.start.length : Int) + l.iskiplist.length then .error .internalInvariant
  else do
    let l ← insEndLoop index (l.endb.length + 2) l 0
    let isl ← Core.PushBack l.iskiplist elem
    let l := { l with iskiplist := isl }
    let endb ← dropFrom l.endb (index - (l.start.length : Int) - l.iskiplist.length)
    .ok { l with endb := endb }

/-- `Truncate` (second document): cut the tail buffer when the cut point
is at or past it; truncate the core when the cut point is at or past the
head buffer (the tail buffer is left as is); otherwise reslice the head
buffer to its first `n` entries (which, `start` being reversed, are the
last `n` logical positions of the head region, and the core and tail are
left as they are). -/
def Truncate (l : BufferedISkipList) (n : Int) : Except Err BufferedISkipList := do
  if n < 0 ∨ n > Length l then .error .outOfBounds
  else
  if n ≥ (l.start.length : Int) + l.iskiplist.length then do
    let endb ← takeTo l.endb (n - (l.start.length : Int) - l.iskiplist.length)
    .ok { l with endb := endb }
  else if n ≥ (l.start.length : Int) then do
    let isl ← Core.Truncate l.iskiplist (n - (l.start.length : Int))
    .ok { l with iskiplist := isl }
  else do
    let start ← takeTo l.start n
    .ok { l with start := start }

end Buf

/-- The operation alphabet of spec §8 property 1 (claim C1): the ops the
test dispatchers apply to a list and to the shadow slice. -/
inductive COp where
  | insert (i v : Int)
  | remove (i : Int)
  | swap (i j : Int)
  | pushFront (v : Int)
  | pushBack (v : Int)
  | popFront
  | popBack
  | truncate (n : Int)
  | set (i v : Int)
deriving Repr, DecidableEq

/-- Dispatch one operation to the part_001 ISkipList, in the style of the
tests' `applyOpToISkipList`, extended to the full op set of property 1. -/
def applyOp (op : COp) (l : ISkipList) : Except Err ISkipList :=
  match op with
  | .insert i v => Core.Insert l i v
  | .remove i => do
    let (_, l) ← Core.Remove l i
    .ok l
  | .swap i j => Core.Swap l i j
  | .pushFront v => Core.PushFront l v
  | .pushBack v => Core.PushBack l v
  | .popFront => do
    let (_, _, l) ← Core.PopFront l
    .ok l
  | .popBack => do
    let (_, _, l) ← Core.PopBack l
    .ok l
  | .truncate n => Core.Truncate l n
  | .set i v => Core.Set l i v

/-- Apply a whole sequence of operations to the list. -/
def runOps (l : ISkipList) : List COp → Except Err ISkipList
  | [] => .ok l
  | op :: rest => do
    let l ← applyOp op l
    runOps l rest

/-- Reference slice semantics of the op alphabet: insert, remove and swap
are the sliceutils operations (`ApplyOpToSlice`), the pushes and pops are
their end-point cases. Modelled from the spec: sliceutils defines no slice
counterpart for `truncate` and `set`, which §8 property 1 nevertheless
includes for the shadow array; `truncate n` keeps the first `n` entries
and `set i v` stores `v` at position `i`. -/
def applyOpToSliceModel (op : COp) (a : List Int) : Except Err (List Int) :=
  match op with
  | .insert i v => SU.SliceInsert a i v
  | .remove i => do
    let (_, a) ← SU.SliceRemove a i
    .ok a
  | .swap i j => SU.SliceSwap a i j
  | .pushFront v => SU.SliceInsert a 0 v
  | .pushBack v => SU.SliceInsert a (a.length : Int) v
  | .popFront => do
    let (_, a) ← SU.SliceRemove a 0
    .ok a
  | .popBack => do
    let (_, a) ← SU.SliceRemove a ((a.length : Int) - 1)
    .ok a
  | .truncate n =>
    if 0 ≤ n ∧ n ≤ (a.length : Int) then .ok (a.take n.toNat) else .error .outOfBounds
  | .set i v => setI a i v

/-- Apply a whole sequence of operations to the shadow slice. -/
def runOpsSlice (a : List Int) : List COp → Except Err (List Int)
  | [] => .ok a
  | op :: rest => do
    let a ← applyOpToSliceModel op a
    runOpsSlice a rest

end ISL

open ISL

set_option maxRecDepth 10000

/-- Operation sequence refuting C1: twelve prepends, a `set` at position 8
whose descent populates the index cache, a truncation to 9 (which shrinks
the level structure while the cache survives, its index 8 being below the
cut), and a final `set` at position 8. Every index satisfies the stated
preconditions at its step. -/
def c1ops : List COp :=
  List.replicate 12 (COp.pushFront 7) ++ [COp.set 8 42, COp.truncate 9, COp.set 8 5]

/-- C1: the claim asserts that any operation sequence with legal indices
drawn from {insert, remove, swap, push_front, push_back, pop_front,
pop_back, truncate, set} behaves on the ISkipList exactly as on the
reference slice. The code violates it: on `c1ops` (seed 12345/67892) the
part_001 skip list aborts with a Go slice-bounds fault — `Truncate`
shrank the level count but left the cache alive, so the next cached
descent starts on a removed level and writes past the end of its prev
arrays, which were sized for the shrunken level count — while the same
sequence on the reference slice succeeds with the nine expected elements. -/
theorem c1_crash_on_legal_sequence :
    runOps (emptySeeded 12345 67892) c1ops = Except.error Err.runtimeFault ∧
    runOpsSlice [] c1ops = Except.ok [7, 7, 7, 7, 7, 7, 7, 7, 5] :=
  ⟨rfl, rfl⟩

/-- C2: the claim asserts that truncate(n) keeps the length at n and every
position below n unchanged, for the buffered wrapper too. The buffered
`Truncate` is wrong: on the buffered list holding 2 at position 0 and 1 at
position 1 (two PushFronts, so the reversed head buffer is [1, 2]),
`Truncate 1` reslices the head buffer to `start[:1] = [1]`, so the length
is 1 as claimed but position 0 now reads 1 instead of the 2 it held before
the call. -/
theorem c2_buffered_truncate_breaks_prefix :
    (do
      let b ← Buf.PushFront Buf.emptyBuf 1
      let b ← Buf.PushFront b 2
      let (v0, b) ← Buf.At b 0
      let b ← Buf.Truncate b 1
      let (v0t, b) ← Buf.At b 0
      Except.ok (v0, Buf.Length b, v0t)) = Except.ok ((2 : Int), (1 : Int), (1 : Int)) :=
  rfl

/-- C3: the claim asserts every index with i < 0 or i > length makes
Insert fail with OutOfBounds leaving the list unchanged. The src/iskiplist.go
variant checks only `index > l.length`, so on the one-element list [7]
(seed 12345/67891) `Insert(-1, 99)` is accepted: no panic is raised and
the length grows to 2 (the element lands at position 1). -/
theorem c3_insert_negative_not_rejected :
    ((do
      let l ← GV.Insert (emptySeeded 12345 67891) 0 7
      GV.Insert l (-1) 99) : Except Err ISkipList).map ISkipList.length = Except.ok 2 :=
  rfl

/-- C4: the claim asserts that buffered operations at logical position
i < |start| touch `start[|start|-1-i]`, so after Set(i, v), At(i) returns
v. The buffered `Set` writes `start[i]` without reversing: on the buffered
list [2, 1] (head buffer [1, 2]), after `Set 0 99` the read `At 0` still
returns 2 and `At 1` returns 99 — the write landed on logical position 1. -/
theorem c4_buffered_set_wrong_slot :
    (do
      let b ← Buf.PushFront Buf.emptyBuf 1
      let b ← Buf.PushFront b 2
      let b ← Buf.Set b 0 99
      let (v0, b) ← Buf.At b 0
      let (v1, _) ← Buf.At b 1
      Except.ok (v0, v1)) = Except.ok ((2 : Int), (99 : Int)) :=
  rfl

/-- C5: the claim asserts that a buffered Insert at i ≥ |start| +
core.length with the end buffer within the in-place bound inserts into the
end buffer so that At(i) = v afterwards. The source routes this branch
through `start` by mistake (`SliceInsert(&l.start, ...)`): on the buffered
list [1, 2] held entirely in the end buffer, `Insert 1 99` indexes the
empty `start` slice at -1 and crashes instead of producing [1, 99, 2]. -/
theorem c5_buffered_insert_end_routes_to_start :
    (do
      let b ← Buf.PushBack Buf.emptyBuf 1
      let b ← Buf.PushBack b 2
      Buf.Insert b 1 99) = Except.error Err.runtimeFault :=
  rfl

/-- Repeated `PushBack(0)` on a buffered list. -/
def pushBackRepeat (b : Buf.BufferedISkipList) : Nat → Except Err Buf.BufferedISkipList
  | 0 => .ok b
  | k + 1 => do
    let b ← Buf.PushBack b 0
    pushBackRepeat b k

/-- C6: the claim asserts the spill policy drains a full buffer into the
core so PushBack always completes normally. In the cited variant
`checkEndSliceGrowth` opens with a leftover `panic("HERE")`: 64 PushBacks
fill the end buffer to MAX_BUFFER, and the 65th panics instead of
draining. -/
theorem c6_pushback_panics_at_max_buffer :
    (pushBackRepeat Buf.emptyBuf 64).map (fun b => b.endb.length) = Except.ok 64 ∧
    pushBackRepeat Buf.emptyBuf 65 = Except.error Err.debugLeftover :=
  ⟨rfl, rfl⟩

/-- Two-element list built through the src/iskiplist.go Insert with seed
12345/67892, used by the C7 counterexample. -/
def c7pre : Except Err ISkipList := do
  let l ← GV.Insert (emptySeeded 12345 67892) 0 5
  GV.Insert l 0 6

/-- C7 counterexample: the claim asserts Remove(i) for i ≥ 1 on a list of
length ≥ 2 never changes n_levels. In src/iskiplist.go, `remove` ends with
`maybeShrink`, which draws a fresh level sample: on the two-element list
`c7pre` (n_levels = 3), `Remove 1` succeeds and leaves n_levels = 2. -/
theorem c7_gv_remove_shrinks_levels :
    c7pre.map ISkipList.nLevels = Except.ok 3 ∧
    (do
      let l ← c7pre
      let (_, l) ← GV.Remove l 1
      Except.ok (l.length, l.nLevels)) = Except.ok ((1 : Int), (2 : Int)) :=
  ⟨rfl, rfl⟩

/-- Two-element list built through the src/iskiplist.go Insert with seed
12345/67891, used by the C8 counterexample. -/
def c8pre : Except Err ISkipList := do
  let l ← GV.Insert (emptySeeded 12345 67891) 0 1
  GV.Insert l 1 2

/-- C8 counterexample: the claim asserts CopyRangeToSlice and IterateRange
accept any from ≤ length and are no-ops for to ≤ from, naming
from == to == length explicitly. The src/iskiplist.go variants check
`from >= l.length`: on the two-element list `c8pre`, both calls with
from = to = 2 panic OutOfBounds instead of returning as a no-op. -/
theorem c8_strict_bounds_reject_empty_range :
    (do
      let l ← c8pre
      let (_, l) ← GV.CopyRangeToSlice l 2 2 []
      Except.ok l.length) = Except.error Err.outOfBounds ∧
    (do
      let l ← c8pre
      let l ← GV.IterateRange l 2 2 (fun x => (x, true))
      Except.ok l.length) = Except.error Err.outOfBounds :=
  ⟨rfl, rfl⟩


lemma tossScan_lt : ∀ {tbl : List Nat} {r i : Nat}, tossScan r tbl = some i → i < tbl.length := by
  intro tbl
  induction tbl with
  | nil => intro r i h; simp [tossScan] at h
  | cons p rest ih =>
    intro r i h
    by_cases hr : r < p
    · simp [tossScan, hr] at h
      simp only [List.length_cons]
      omega
    · simp [tossScan, hr] at h
      obtain ⟨j, hj, hji⟩ := h
      have := ih hj
      simp only [List.length_cons]
      omega

lemma nTosses_le (p0 : Pcg32) : (nTosses p0).1 ≤ maxLevels := by
  have h21 : pTable.length = 21 := by decide
  have h9 : (pTable.take 9).length = 9 := by decide
  unfold nTosses
  set p := if p0.IsUninitialized then fastSeed else p0 with hp
  cases h1 : tossScan p.Random.1 pTable with
  | some i =>
    simp only [h1]
    have := tossScan_lt h1
    simp only [maxLevels]
    omega
  | none =>
    simp only [h1]
    cases h2 : tossScan p.Random.2.Random.1 (pTable.take 9) with
    | some i =>
      simp only [h2]
      have := tossScan_lt h2
      simp only [maxLevels]
      omega
    | none =>
      simp only [h2]
      exact le_refl _

lemma maxAcc_le {acc v b : Int} (h1 : acc ≤ b) (h2 : v ≤ b) : maxAcc acc v ≤ b := by
  unfold maxAcc
  split <;> assumption

lemma residualTosses_le (k : Nat) (p : Pcg32) (acc : Int) (h : acc ≤ maxLevels) :
    (residualTosses k p acc).1 ≤ maxLevels := by
  induction k generalizing p acc with
  | zero => simpa [residualTosses]
  | succ k ih =>
    unfold residualTosses
    exact ih _ _ (maxAcc_le h (nTosses_le _))
lemma blockSpec_le (n : Int) :
    ((blockSpec n).2.1.length : Int) + ((blockSpec n).2.2 : Int) ≤ 30 := by
  unfold blockSpec
  by_cases h0 : n < 32
  · rw [if_pos h0]
    decide
  · rw [if_neg h0]
    by_cases h1 : n < 128
    · rw [if_pos h1]
      decide
    · rw [if_neg h1]
      by_cases h2 : n < 512
      · rw [if_pos h2]
        decide
      · rw [if_neg h2]
        by_cases h3 : n < 2048
        · rw [if_pos h3]
          decide
        · rw [if_neg h3]
          by_cases h4 : n < 8192
          · rw [if_pos h4]
            decide
          · rw [if_neg h4]
            by_cases h5 : n < 32768
            · rw [if_pos h5]
              decide
            · rw [if_neg h5]
              by_cases h6 : n < 131072
              · rw [if_pos h6]
                decide
              · rw [if_neg h6]
                by_cases h7 : n < 262144
                · rw [if_pos h7]
                  decide
                · rw [if_neg h7]
                  by_cases h8 : n < 1048576
                  · rw [if_pos h8]
                    decide
                  · rw [if_neg h8]
                    by_cases h9 : n < 4194304
                    · rw [if_pos h9]
                      decide
                    · rw [if_neg h9]
                      by_cases h10 : n < 16777216
                      · rw [if_pos h10]
                        decide
                      · rw [if_neg h10]
                        by_cases h11 : n < 67108864
                        · rw [if_pos h11]
                          decide
                        · rw [if_neg h11]
                          by_cases h12 : n < 268435456
                          · rw [if_pos h12]
                            decide
                          · rw [if_neg h12]
                            by_cases h13 : n < 1073741824
                            · rw [if_pos h13]
                              decide
                            · rw [if_neg h13]
                              by_cases h14 : n < 4294967296
                              · rw [if_pos h14]
                                decide
                              · rw [if_neg h14]
                                by_cases h15 : n < 17179869184
                                · rw [if_pos h15]
                                  decide
                                · rw [if_neg h15]
                                  by_cases h16 : n < 68719476736
                                  · rw [if_pos h16]
                                    decide
                                  · rw [if_neg h16]
                                    by_cases h17 : n < 274877906944
                                    · rw [if_pos h17]
                                      decide
                                    · rw [if_neg h17]
                                      by_cases h18 : n < 1099511627776
                                      · rw [if_pos h18]
                                        decide
                                      · rw [if_neg h18]
                                        by_cases h19 : n < 4398046511104
                                        · rw [if_pos h19]
                                          decide
                                        · rw [if_neg h19]
                                          decide

lemma estimateLoop_le (fuel : Nat) (p : Pcg32) (n acc : Int) (h : acc ≤ maxLevels) :
    (estimateLoop fuel p n acc).1 ≤ maxLevels := by
  induction fuel generalizing p n acc with
  | zero => simpa [estimateLoop]
  | succ fuel ih =>
    unfold estimateLoop
    split
    · split
      · exact residualTosses_le _ _ _ h
      · cases hscan : tossScan p.Random.1 (blockSpec n).2.1 with
        | some i =>
          simp only [hscan]
          apply ih
          apply maxAcc_le h
          have h1 := tossScan_lt hscan
          have h2 := blockSpec_le n
          simp only [maxLevels]
          omega
        | none =>
          simp only [hscan]
          exact le_refl _
    · simpa

lemma estimate_le (p : Pcg32) (n : Int) : (estimateNLevelsFromLength p n).1 ≤ maxLevels := by
  unfold estimateNLevelsFromLength
  exact estimateLoop_le _ _ _ _ (by simp [maxLevels])

lemma growForLevel_le {l : ISkipList} {level : Int} {l' : ISkipList}
    (hlev : level ≤ 29) (hn : l.nLevels ≤ 30)
    (h : growForLevel l level = Except.ok l') : l'.nLevels ≤ 30 := by
  unfold growForLevel at h
  simp only [bind, Except.bind] at h
  split at h
  · split at h
    · simp at h
    · simp only [Except.ok.injEq] at h
      subst h
      simpa using by omega
  · simp only [Except.ok.injEq] at h
    subst h
    exact hn

lemma addSparserLevel_le {l : ISkipList} {p : Option Ptr} {node : Ptr} {level index : Int}
    {l' : ISkipList} {c : Ptr} (hlev : level ≤ 29) (hn : l.nLevels ≤ 30)
    (h : addSparserLevel l p node level index = Except.ok (l', c)) : l'.nLevels ≤ 30 := by
  unfold addSparserLevel at h
  simp only [bind, Except.bind] at h
  split at h
  · simp at h
  · rename_i l1 hgrow
    have h1 := growForLevel_le hlev hn hgrow
    repeat' split at h
    all_goals
      first
        | exact Except.noConfusion h
        | (simp only [Except.ok.injEq, Prod.mk.injEq] at h
           obtain ⟨h2, -⟩ := h
           subst h2
           exact h1)

lemma insertLevelsLoop_le {index nlev : Int} {prevs : List (Option Ptr)} :
    ∀ {fuel : Nat} {i : Int} {l : ISkipList} {n : Ptr} {prevsI : Int} {res : ISkipList × Int},
    l.nLevels ≤ 30 →
    insertLevelsLoop index nlev prevs fuel i l n prevsI = Except.ok res →
    res.1.nLevels ≤ 30 := by
  intro fuel
  induction fuel with
  | zero =>
    intro i l n prevsI res hn h
    exact Except.noConfusion h
  | succ fuel ih =>
    intro i l n prevsI res hn h
    unfold insertLevelsLoop at h
    simp only [bind, Except.bind] at h
    split at h
    · rename_i hcond
      repeat' split at h
      any_goals exact Except.noConfusion h
      all_goals (
        rename_i hst
        refine ih ?_ h
        refine addSparserLevel_le ?_ hn hst
        simp only [maxLevels] at hcond
        omega)
    · simp only [Except.ok.injEq] at h
      subst h
      exact hn

lemma spliceAndLift_le {l : ISkipList} {node : Option Ptr} {prevs : List (Option Ptr)}
    {index elem : Int} {l' : ISkipList} (hn : l.nLevels ≤ 30)
    (h : Core.spliceAndLift l node prevs index elem = Except.ok l') : l'.nLevels ≤ 30 := by
  unfold Core.spliceAndLift at h
  simp only [bind, Except.bind] at h
  repeat' split at h
  any_goals exact Except.noConfusion h
  all_goals (
    simp only [Except.ok.injEq] at h
    subst h
    rename_i x1 v1 hloop x2 v2 hbump
    refine insertLevelsLoop_le ?_ hloop
    exact hn)

lemma insertAtBeginning_le {l : ISkipList} {elem : Int} {l' : ISkipList}
    (hn : l.nLevels ≤ 30) (h : Core.insertAtBeginning l elem = Except.ok l') :
    l'.nLevels ≤ 30 := by
  have ht := nTosses_le l.rand
  simp only [maxLevels] at ht
  unfold Core.insertAtBeginning at h
  simp only [bind, Except.bind] at h
  repeat' split at h
  any_goals exact Except.noConfusion h
  all_goals (
    simp only [Except.ok.injEq] at h
    subst h
    simp only []
    try exact hn
    try omega)

lemma pushFront_le {l : ISkipList} {elem : Int} {l' : ISkipList}
    (hn : l.nLevels ≤ 30) (h : Core.PushFront l elem = Except.ok l') : l'.nLevels ≤ 30 := by
  unfold Core.PushFront at h
  simp only [bind, Except.bind] at h
  split at h
  · exact Except.noConfusion h
  · rename_i l2 hiab
    simp only [Except.ok.injEq] at h
    subst h
    change l2.nLevels ≤ 30
    exact insertAtBeginning_le hn hiab

lemma insert_le {l : ISkipList} {index elem : Int} {l' : ISkipList}
    (hn : l.nLevels ≤ 30) (h : Core.Insert l index elem = Except.ok l') : l'.nLevels ≤ 30 := by
  unfold Core.Insert at h
  simp only [bind, Except.bind] at h
  repeat' split at h
  any_goals exact Except.noConfusion h
  all_goals
    first
      | (refine spliceAndLift_le ?_ h
         (repeat' split) <;> exact hn)
      | (simp only [Except.ok.injEq] at h
         subst h
         rename_i l2 hiab
         change l2.nLevels ≤ 30
         refine insertAtBeginning_le ?_ hiab
         (repeat' split) <;> exact hn)

lemma pushBack_le {l : ISkipList} {elem : Int} {l' : ISkipList}
    (hn : l.nLevels ≤ 30) (h : Core.PushBack l elem = Except.ok l') : l'.nLevels ≤ 30 := by
  unfold Core.PushBack at h
  simp only [bind, Except.bind] at h
  repeat' split at h
  any_goals exact Except.noConfusion h
  all_goals
    first
      | (refine spliceAndLift_le ?_ h
         (repeat' split) <;> exact hn)
      | (simp only [Except.ok.injEq] at h
         subst h
         rename_i l2 hiab
         change l2.nLevels ≤ 30
         refine insertAtBeginning_le ?_ hiab
         (repeat' split) <;> exact hn)

lemma rfStrip_le {hH : Heap} :
    ∀ {fuel : Nat} {root : Option Ptr} {nLevels : Int} {res : Option Ptr × Int},
    Core.rfStrip hH fuel root nLevels = Except.ok res → res.2 ≤ nLevels := by
  intro fuel
  induction fuel with
  | zero =>
    intro root nLevels res h
    exact Except.noConfusion h
  | succ fuel ih =>
    intro root nLevels res h
    unfold Core.rfStrip at h
    simp only [bind, Except.bind] at h
    repeat' split at h
    any_goals exact Except.noConfusion h
    · have := ih h
      omega
    · simp only [Except.ok.injEq] at h
      subst h
      exact le_refl _

lemma removeFirst_le {l : ISkipList} {res : Int × ISkipList}
    (hn : l.nLevels ≤ 30) (h : Core.removeFirst l = Except.ok res) :
    res.2.nLevels ≤ 30 := by
  unfold Core.removeFirst at h
  simp only [bind, Except.bind] at h
  repeat' split at h
  any_goals exact Except.noConfusion h
  all_goals (
    rename_i hstrip
    simp only [Except.ok.injEq] at h
    subst h
    simp only []
    have := rfStrip_le (by assumption : Core.rfStrip _ _ _ _ = Except.ok _)
    omega)

lemma remove_le {l : ISkipList} {index : Int} {res : Int × ISkipList}
    (hn : l.nLevels ≤ 30) (h : Core.Remove l index = Except.ok res) :
    res.2.nLevels ≤ 30 := by
  unfold Core.Remove at h
  simp only [bind, Except.bind] at h
  repeat' split at h
  any_goals exact Except.noConfusion h
  all_goals simp only [Except.ok.injEq] at h
  all_goals subst h
  all_goals simp only []
  all_goals
    first
      | omega
      | (refine removeFirst_le ?_ (by assumption)
         (repeat' split) <;> exact hn)
      | ((repeat' split) <;> exact hn)

lemma shrink_nLevels {l : ISkipList} {levels : Int} {l' : ISkipList}
    (h : Core.shrink l levels = Except.ok l') : l'.nLevels = l.nLevels - levels := by
  unfold Core.shrink at h
  simp only [bind, Except.bind] at h
  split at h
  · exact Except.noConfusion h
  · simp only [Except.ok.injEq] at h
    subst h
    rfl

lemma truncate_le {l : ISkipList} {n : Int} {l' : ISkipList}
    (hn : l.nLevels ≤ 30) (h : Core.Truncate l n = Except.ok l') : l'.nLevels ≤ 30 := by
  unfold Core.Truncate at h
  simp only [bind, Except.bind] at h
  repeat' split at h
  any_goals exact Except.noConfusion h
  all_goals
    first
      | (rename_i hlt
         have hs := shrink_nLevels h
         try simp only [] at hs
         try simp only [] at hlt
         omega)
      | (simp only [Except.ok.injEq] at h
         subst h
         first
           | exact hn
           | simp [Core.Clear]
           | ((repeat' split) <;> exact hn))

lemma retrieve_le {l : ISkipList} {i : Int} {res : Option Ptr × ISkipList}
    (hn : l.nLevels ≤ 30) (h : Core.retrieve l i = Except.ok res) : res.2.nLevels ≤ 30 := by
  unfold Core.retrieve at h
  simp only [bind, Except.bind] at h
  repeat' split at h
  any_goals exact Except.noConfusion h
  all_goals (
    simp only [Except.ok.injEq] at h
    subst h
    exact hn)

set_option maxHeartbeats 1600000

lemma set_le {l : ISkipList} {i v : Int} {l' : ISkipList}
    (hn : l.nLevels ≤ 30) (h : Core.Set l i v = Except.ok l') : l'.nLevels ≤ 30 := by
  unfold Core.Set at h
  simp only [bind, Except.bind] at h
  repeat' split at h
  any_goals exact Except.noConfusion h
  all_goals (
    simp only [Except.ok.injEq] at h
    subst h
    rename_i a1 b1 hret a2 b2 hread a3 b3 hwrite
    refine retrieve_le ?_ hret
    exact hn)

lemma swap_le {l : ISkipList} {i1 i2 : Int} {l' : ISkipList}
    (hn : l.nLevels ≤ 30) (h : Core.Swap l i1 i2 = Except.ok l') : l'.nLevels ≤ 30 := by
  unfold Core.Swap at h
  simp only [bind, Except.bind] at h
  repeat' split at h
  any_goals exact Except.noConfusion h
  all_goals (
    simp only [Except.ok.injEq] at h
    subst h
    first
      | exact hn
      | ((repeat' split) <;> exact hn))

lemma popFront_le {l : ISkipList} {res : Int × Bool × ISkipList}
    (hn : l.nLevels ≤ 30) (h : Core.PopFront l = Except.ok res) : res.2.2.nLevels ≤ 30 := by
  unfold Core.PopFront at h
  simp only [bind, Except.bind] at h
  repeat' split at h
  any_goals exact Except.noConfusion h
  all_goals (
    simp only [Except.ok.injEq] at h
    subst h
    first
      | exact hn
      | exact remove_le hn (by assumption))

lemma popBack_le {l : ISkipList} {res : Int × Bool × ISkipList}
    (hn : l.nLevels ≤ 30) (h : Core.PopBack l = Except.ok res) : res.2.2.nLevels ≤ 30 := by
  unfold Core.PopBack at h
  simp only [bind, Except.bind] at h
  repeat' split at h
  any_goals exact Except.noConfusion h
  all_goals (
    simp only [Except.ok.injEq] at h
    subst h
    first
      | exact hn
      | exact remove_le hn (by assumption))


/-- C9: level-count invariant. The per-node level sample `nTosses` and the
bulk estimator `estimateNLevelsFromLength` never return more than
`maxLevels = 30`, and no operation of the op alphabet (insert, remove,
swap, push_front, push_back, pop_front, pop_back, truncate, set) grows
`nLevels` of a list above 30: every successful `applyOp` preserves
`nLevels ≤ 30`. -/
theorem c9_level_bound :
    (∀ p : Pcg32, (nTosses p).1 ≤ maxLevels) ∧
    (∀ (p : Pcg32) (n : Int), (estimateNLevelsFromLength p n).1 ≤ maxLevels) ∧
    (∀ (op : COp) (l l' : ISkipList), l.nLevels ≤ 30 →
      applyOp op l = Except.ok l' → l'.nLevels ≤ 30) := by
  refine ⟨nTosses_le, estimate_le, ?_⟩
  intro op l l' hn h
  cases op with
  | insert i v => exact insert_le hn h
  | remove i =>
    simp only [applyOp, bind, Except.bind] at h
    split at h
    · exact Except.noConfusion h
    · simp only [Except.ok.injEq] at h
      subst h
      exact remove_le hn (by assumption)
  | swap i j => exact swap_le hn h
  | pushFront v => exact pushFront_le hn h
  | pushBack v => exact pushBack_le hn h
  | popFront =>
    simp only [applyOp, bind, Except.bind] at h
    split at h
    · exact Except.noConfusion h
    · simp only [Except.ok.injEq] at h
      subst h
      exact popFront_le hn (by assumption)
  | popBack =>
    simp only [applyOp, bind, Except.bind] at h
    split at h
    · exact Except.noConfusion h
    · simp only [Except.ok.injEq] at h
      subst h
      exact popBack_le hn (by assumption)
  | truncate n => exact truncate_le hn h
  | set i v => exact set_le hn h

/-- Witness for the C9 theorem at a concrete input: the empty list seeded
with 3/4 has `nLevels = 0 ≤ 30`, `pop_front` on it succeeds and returns it
unchanged, and the bound holds on the result. -/
theorem c9_level_bound_witness :
    (emptySeeded 3 4).nLevels ≤ 30 ∧
    applyOp COp.popFront (emptySeeded 3 4) = Except.ok (emptySeeded 3 4) ∧
    (emptySeeded 3 4).nLevels ≤ 30 :=
  ⟨by decide, rfl, c9_level_bound.2.2 COp.popFront (emptySeeded 3 4) (emptySeeded 3 4) (by decide) rfl⟩

/-- C7 (amended): in the src/unnamed/part_001 variant, `Remove i` with
i ≥ 1 never draws a fresh level sample and never shrinks the level
structure: both `nLevels` and the generator state `rand` are left exactly
as they were. (The src/iskiplist.go variant violates the claim as stated:
its `remove` calls `maybeShrink`, which draws a fresh sample and may lower
`nLevels`; see the counterexample.) -/
theorem c7_core_remove_preserves_levels (l : ISkipList) (index v : Int) (l' : ISkipList)
    (hi : 1 ≤ index) (h : Core.Remove l index = Except.ok (v, l')) :
    l'.nLevels = l.nLevels ∧ l'.rand = l.rand := by
  unfold Core.Remove at h
  simp only [bind, Except.bind] at h
  repeat' split at h
  any_goals simp_all
  any_goals omega
  all_goals (obtain ⟨-, h2⟩ := h; subst h2; exact ⟨rfl, rfl⟩)

/-- Two-element list built through the part_001 PushFront with seed
12345/67891, used by the C7 witness. -/
def c7wl : ISkipList :=
  match (do
    let l ← Core.PushFront (emptySeeded 12345 67891) 1
    Core.PushFront l 2 : Except Err ISkipList) with
  | .ok l => l
  | .error _ => emptySeeded 12345 67891

/-- Result of removing index 1 from `c7wl`, used by the C7 witness. -/
def c7wres : Int × ISkipList :=
  match Core.Remove c7wl 1 with
  | .ok r => r
  | .error _ => (0, c7wl)

/-- Witness for the C7 amended theorem at a concrete input: removing
index 1 from the two-element list `c7wl` succeeds and keeps `nLevels`
and `rand` unchanged. -/
theorem c7_core_remove_preserves_levels_witness :
    (1 : Int) ≤ 1 ∧ Core.Remove c7wl 1 = Except.ok (c7wres.1, c7wres.2) ∧
    (c7wres.2.nLevels = c7wl.nLevels ∧ c7wres.2.rand = c7wl.rand) :=
  ⟨le_refl 1, rfl, c7_core_remove_preserves_levels c7wl 1 c7wres.1 c7wres.2 (le_refl 1) rfl⟩

/-- C10: on an empty list, the src/iskiplist.go `PopFront` and `PopBack`
do not fail: each returns the zero value 0 of the element type together
with `false`, and leaves the list entirely unchanged. -/
theorem c10_pop_empty_returns_zero_false (l : ISkipList) (h : l.length = 0) :
    GV.PopFront l = Except.ok (0, false, l) ∧ GV.PopBack l = Except.ok (0, false, l) := by
  unfold GV.PopFront GV.PopBack
  simp [h]

/-- Witness for the C10 theorem at a concrete input: the empty seeded list
has length 0 and both pops return (0, false) leaving it unchanged. -/
theorem c10_pop_empty_returns_zero_false_witness :
    (emptySeeded 3 4).length = 0 ∧
    (GV.PopFront (emptySeeded 3 4) = Except.ok (0, false, emptySeeded 3 4) ∧
     GV.PopBack (emptySeeded 3 4) = Except.ok (0, false, emptySeeded 3 4)) :=
  ⟨rfl, c10_pop_empty_returns_zero_false (emptySeeded 3 4) rfl⟩

/-- C8 (amended): the src/unnamed/part_001 variants of `CopyRangeToSlice`
and `IterateRange` are the permissive form: any `from` with
0 ≤ to ≤ from ≤ length passes the bounds checks, and an empty range
(to ≤ from) is a no-op that leaves both the list and the destination
slice unchanged and visits no element. (The src/iskiplist.go variants
reject `from = length` and thus violate the claim as stated; see the
counterexample.) -/
theorem c8_core_empty_range_noop (l : ISkipList) (frm tto : Int) (slice : List Int)
    (f : Int → Int × Bool)
    (h0 : 0 ≤ tto) (h1 : tto ≤ frm) (h2 : frm ≤ l.length) :
    Core.CopyRangeToSlice l frm tto slice = Except.ok (slice, l) ∧
    Core.IterateRange l frm tto f = Except.ok l := by
  unfold Core.CopyRangeToSlice Core.IterateRange
  constructor <;> (repeat' split) <;> first | rfl | omega

/-- Witness for the C8 amended theorem at a concrete input: on the empty
seeded list with from = to = 0 both range operations are no-ops. -/
theorem c8_core_empty_range_noop_witness :
    (0 : Int) ≤ 0 ∧ (0 : Int) ≤ 0 ∧ (0 : Int) ≤ (emptySeeded 3 4).length ∧
    Core.CopyRangeToSlice (emptySeeded 3 4) 0 0 [] = Except.ok ([], emptySeeded 3 4) ∧
    Core.IterateRange (emptySeeded 3 4) 0 0 (fun x => (x, true)) = Except.ok (emptySeeded 3 4) :=
  ⟨le_refl 0, le_refl 0, by decide,
   (c8_core_empty_range_noop (emptySeeded 3 4) 0 0 [] (fun x => (x, true))
     (le_refl 0) (le_refl 0) (by decide)).1,
   (c8_core_empty_range_noop (emptySeeded 3 4) 0 0 [] (fun x => (x, true))
     (le_refl 0) (le_refl 0) (by decide)).2⟩
